import Mathlib

/-!
Verification development for the hybrid canvas layout engine
(geometry snapshot capture, style/gradient parsing, flex/grid layout,
dual-backend rendering).

The definitions below are a shallow embedding of the JavaScript source:
  - src/engine/WebEngine.jsx        (GeometrySnapshot, FlexNode, GridNode, TextNode, PixiRendererEngine)
  - src/canvasEngine/CanvasEngine.jsx
  - public/workers/styleWorker.js
  - public/legacy-workers/workers/gradientWorker.js
JavaScript numbers are modelled as rationals; NaN is modelled as
Option.none (written JNum below); JS strings as String.
-/

namespace WebglSpec

/-! ### JavaScript numeric primitives

A JS number that may be NaN is `Option ℚ` (none = NaN).  Infinity does not
arise on the code paths embedded here (divisions by zero are all guarded or
produce NaN from a 0/0, which we model as none). -/

/-- JS number or NaN. -/
abbrev JNum := Option ℚ

/-- Model of the JS expression a + b on possibly-NaN numbers. -/
def jnAdd (a b : JNum) : JNum :=
  match a, b with
  | some x, some y => some (x + y)
  | _, _ => none

/-- Model of the JS expression a * b on possibly-NaN numbers. -/
def jnMul (a b : JNum) : JNum :=
  match a, b with
  | some x, some y => some (x * y)
  | _, _ => none

/-- Model of JS a / b: NaN propagates and 0/0 (the only zero-denominator
division reachable in the embedded code) is NaN. -/
def jnDiv (a b : JNum) : JNum :=
  match a, b with
  | some x, some y => if y = 0 then none else some (x / y)
  | _, _ => none

/-- Model of the JS comparison a > b (false when either side is NaN). -/
def jnGt (a b : JNum) : Bool :=
  match a, b with
  | some x, some y => decide (y < x)
  | _, _ => false

/-- Model of the JS expression v || d for numbers: NaN and 0 are falsy. -/
def jsOrQ (v : JNum) (d : ℚ) : ℚ :=
  match v with
  | none => d
  | some x => if x = 0 then d else x

/-- Model of the JS expression v || d for numbers, keeping a possibly-NaN
default (used for lineHeight, whose fallback can itself be NaN). -/
def jsOrJ (v d : JNum) : JNum :=
  match v with
  | none => d
  | some x => if x = 0 then d else some x

/-- Model of the JS expression v || d on integers (parseInt results). -/
def jsOrZ (v : Option ℤ) (d : ℤ) : ℤ :=
  match v with
  | none => d
  | some x => if x = 0 then d else x

/-- Model of the JS expression a || b for an already-defaulted integer:
0 is falsy and replaced by b. -/
def jsOrInt (a b : ℤ) : ℤ := if a = 0 then b else a

/-- Model of the JS expression s || d for strings ("" is falsy). -/
def jsOrStr (s d : String) : String := if s = "" then d else s

/-- JS string truthiness. -/
def truthyStr (s : String) : Bool := s ≠ ""

/-- Math.round: round half toward positive infinity. -/
def jsRound (q : ℚ) : ℤ := ⌊q + 1/2⌋

/-! ### parseFloat / parseInt

`parseFloat` skips leading whitespace, accepts an optional sign, digits,
an optional decimal point with digits, and ignores any trailing garbage
(exponents never occur in the embedded inputs).  It is NaN when no digit
was consumed. -/

/-- Numeric value of a decimal digit character. -/
def digitVal (c : Char) : ℕ := c.toNat - 48

/-- Split a leading run of decimal digits from a character list. -/
def takeDigits : List Char → (List ℕ × List Char)
  | [] => ([], [])
  | c :: cs =>
    if c.isDigit then
      let p := takeDigits cs
      (digitVal c :: p.1, p.2)
    else ([], c :: cs)

/-- Integer value of a digit list (most significant first). -/
def natOfDigits (ds : List ℕ) : ℕ := ds.foldl (fun a d => a * 10 + d) 0

/-- Fractional value of a digit list read after a decimal point. -/
def fracOfDigits (ds : List ℕ) : ℚ := ds.foldr (fun d a => ((d : ℚ) + a) / 10) 0

/-- Core of JS parseFloat on a character list. -/
def parseFloatCore (cs0 : List Char) : JNum :=
  let cs1 := cs0.dropWhile Char.isWhitespace
  let sp : ℚ × List Char :=
    match cs1 with
    | '-' :: rest => (-1, rest)
    | '+' :: rest => (1, rest)
    | _ => (1, cs1)
  let ip := takeDigits sp.2
  match ip.2 with
  | '.' :: cs2 =>
    let fp := takeDigits cs2
    if ip.1.isEmpty && fp.1.isEmpty then none
    else some (sp.1 * ((natOfDigits ip.1 : ℚ) + fracOfDigits fp.1))
  | _ =>
    if ip.1.isEmpty then none
    else some (sp.1 * (natOfDigits ip.1 : ℚ))

/-- Model of JS parseFloat. -/
def jsParseFloat (s : String) : JNum := parseFloatCore s.toList

/-- Core of JS parseInt (base 10) on a character list. -/
def parseIntCore (cs0 : List Char) : Option ℤ :=
  let cs1 := cs0.dropWhile Char.isWhitespace
  let sp : ℤ × List Char :=
    match cs1 with
    | '-' :: rest => (-1, rest)
    | '+' :: rest => (1, rest)
    | _ => (1, cs1)
  let ip := takeDigits sp.2
  if ip.1.isEmpty then none else some (sp.1 * (natOfDigits ip.1 : ℤ))

/-- Model of JS parseInt with radix 10 behaviour. -/
def jsParseInt (s : String) : Option ℤ := parseIntCore s.toList

/-! ### JS string helpers -/

/-- Whether the pattern is a prefix of the character list. -/
def chLeads : List Char → List Char → Bool
  | [], _ => true
  | _ :: _, [] => false
  | p :: ps, c :: cs => p = c && chLeads ps cs

/-- Whether the pattern occurs anywhere in the character list. -/
def chFind (pat : List Char) : List Char → Bool
  | [] => pat.isEmpty
  | c :: cs => chLeads pat (c :: cs) || chFind pat cs

/-- Model of JS String.prototype.includes. -/
def strContains (s pat : String) : Bool := chFind pat.toList s.toList

/-- Model of JS String.prototype.startsWith. -/
def strStarts (s pat : String) : Bool := chLeads pat.toList s.toList

/-- Suffix of a character list after the first occurrence of the pattern,
none when the pattern does not occur. -/
def chAfterFirst (pat : List Char) : List Char → Option (List Char)
  | [] => if pat.isEmpty then some [] else none
  | c :: cs =>
    if chLeads pat (c :: cs) then some ((c :: cs).drop pat.length)
    else chAfterFirst pat cs

/-- Replace the first occurrence of the pattern by nothing
(model of JS s.replace(pat, '') for a plain-string pattern). -/
def chDropFirst (pat : List Char) : List Char → List Char
  | [] => []
  | c :: cs =>
    if chLeads pat (c :: cs) then (c :: cs).drop pat.length
    else c :: chDropFirst pat cs

/-- Model of JS s.replace(pat, '') for a plain-string pattern. -/
def strDropFirst (s pat : String) : String := String.mk (chDropFirst pat.toList s.toList)

/-- Model of JS String.prototype.trim on a character list. -/
def chTrim (cs : List Char) : List Char :=
  ((cs.dropWhile Char.isWhitespace).reverse.dropWhile Char.isWhitespace).reverse

/-- Model of JS String.prototype.trim. -/
def strTrim (s : String) : String := String.mk (chTrim s.toList)

/-- Model of JS String.prototype.toLowerCase. -/
def strLower (s : String) : String := String.mk (s.toList.map Char.toLower)

/-! ### Clip regions (WebEngine.jsx captureNode, lines 170-197)

A clip region carries device-independent rationals; the radius field is a
possibly-NaN number because the percentage branch of the border-radius
computation multiplies by the result of a parseFloat. -/

/-- ClipRegion record as stored on captured nodes. -/
structure ClipRegion where
  x : ℚ
  y : ℚ
  width : ℚ
  height : ℚ
  radius : JNum
deriving DecidableEq, Repr

/-- The degenerate clip produced when an intersection is empty. -/
def zeroClip : ClipRegion := ⟨0, 0, 0, 0, some 0⟩

/-- Rectangle intersection of a parent clip with the node's own clip region,
as written in WebEngine.jsx captureNode: when the intersection is empty in
either axis the result collapses to the zero clip. -/
def clipIntersect (parentClip myClip : ClipRegion) : ClipRegion :=
  let x1 := max parentClip.x myClip.x
  let y1 := max parentClip.y myClip.y
  let x2 := min (parentClip.x + parentClip.width) (myClip.x + myClip.width)
  let y2 := min (parentClip.y + parentClip.height) (myClip.y + myClip.height)
  if x1 < x2 ∧ y1 < y2 then
    ⟨x1, y1, x2 - x1, y2 - y1, myClip.radius⟩
  else zeroClip

/-- Open-rectangle membership: the set of points a clip region lets through
(a zero-area clip lets nothing through). -/
def pointInInterior (px py : ℚ) (c : ClipRegion) : Prop :=
  c.x < px ∧ px < c.x + c.width ∧ c.y < py ∧ py < c.y + c.height

instance (px py : ℚ) (c : ClipRegion) : Decidable (pointInInterior px py c) := by
  unfold pointInInterior; infer_instance

/-! ### Top-level comma splitting (depth-aware)

WebEngine.jsx parseGradient / parseLinearGradient / parseRadialGradient and
styleWorker.js all split on commas at parenthesis depth 0, trimming each
chunk.  Depth is a JS number that may go negative on malformed input, so it
is an integer here. -/

/-- Worker loop of the depth-aware splitter. -/
def splitTopGo : List Char → ℤ → List Char → List String
  | [], _, acc => [strTrim (String.mk acc.reverse)]
  | c :: cs, depth, acc =>
    if c = '(' then splitTopGo cs (depth + 1) (c :: acc)
    else if c = ')' then splitTopGo cs (depth - 1) (c :: acc)
    else if c = ',' ∧ depth = 0 then strTrim (String.mk acc.reverse) :: splitTopGo cs depth []
    else splitTopGo cs depth (c :: acc)

/-- Split a string at top-level commas, trimming each part.  Always returns
at least one part, like the JS loops which push the final substring. -/
def splitTopLevel (s : String) : List String := splitTopGo s.toList 0 []

/-- Characters before the first close parenthesis (lazy .*? up to a close
parenthesis); none when no close parenthesis occurs. -/
def upToFirstRParen : List Char → Option (List Char)
  | [] => none
  | ')' :: _ => some []
  | c :: cs => (upToFirstRParen cs).map (c :: ·)

/-- Characters before the last close parenthesis (greedy .* up to a close
parenthesis); none when no close parenthesis occurs. -/
def upToLastRParen (cs : List Char) : Option (List Char) :=
  match cs.reverse.dropWhile (fun c => ¬ c = ')') with
  | ')' :: rest => some rest.reverse
  | _ => none

/-- Captured group of the regex kw + greedy dot-star + close parenthesis,
searching from the first occurrence of the keyword (the keyword string
includes the open parenthesis). -/
def matchGradientContent (s kw : String) : Option String :=
  match chAfterFirst kw.toList s.toList with
  | some rest => (upToLastRParen rest).map String.mk
  | none => none

/-! ### Color-stop token matching

The engine matches colors with the regex
hash [a-fA-F0-0] three-to-eight | rgba? lazy-parens | letter-run
(note the char class types 0-0, so the only digit it accepts is 0), the
style worker with rgba? lazy-parens | hash [0-9a-fA-F] one-plus |
letter-run.  Both take the leftmost match, trying alternatives in the
regex order at each position. -/

/-- Character class [a-fA-F0-0] of the engine's hash-color alternative:
hex letters and the digit 0 only. -/
def isEngineHexChar (c : Char) : Bool :=
  ('a' ≤ c && c ≤ 'f') || ('A' ≤ c && c ≤ 'F') || c = '0'

/-- Full hexadecimal character class [0-9a-fA-F]. -/
def isHexChar (c : Char) : Bool :=
  c.isDigit || ('a' ≤ c && c ≤ 'f') || ('A' ≤ c && c ≤ 'F')

/-- Engine alternative: hash followed by three to eight [a-fA-F0-0] chars
(greedy, no backtracking needed since nothing follows in the pattern). -/
def tryAltHashEngine : List Char → Option (List Char)
  | '#' :: cs =>
    let run := (cs.takeWhile isEngineHexChar).take 8
    if 3 ≤ run.length then some ('#' :: run) else none
  | _ => none

/-- Worker alternative: hash followed by one or more hex chars. -/
def tryAltHashWorker : List Char → Option (List Char)
  | '#' :: cs =>
    let run := cs.takeWhile isHexChar
    if run.isEmpty then none else some ('#' :: run)
  | _ => none

/-- Alternative rgba? open-paren lazy-dot-star close-paren. -/
def tryAltRgb : List Char → Option (List Char)
  | 'r' :: 'g' :: 'b' :: rest =>
    match rest with
    | 'a' :: '(' :: rest2 =>
      (upToFirstRParen rest2).map (fun body => 'r' :: 'g' :: 'b' :: 'a' :: '(' :: (body ++ [')']))
    | '(' :: rest2 =>
      (upToFirstRParen rest2).map (fun body => 'r' :: 'g' :: 'b' :: '(' :: (body ++ [')']))
    | _ => none
  | _ => none

/-- Alternative letter-run one-or-more. -/
def tryAltAlpha (cs : List Char) : Option (List Char) :=
  let run := cs.takeWhile Char.isAlpha
  if run.isEmpty then none else some run

/-- Leftmost match of the engine color regex. -/
def regexColorEngine : List Char → Option String
  | [] => none
  | c :: cs =>
    match tryAltHashEngine (c :: cs) with
    | some m => some (String.mk m)
    | none =>
      match tryAltRgb (c :: cs) with
      | some m => some (String.mk m)
      | none =>
        match tryAltAlpha (c :: cs) with
        | some m => some (String.mk m)
        | none => regexColorEngine cs

/-- Leftmost match of the style worker color regex. -/
def regexColorWorker : List Char → Option String
  | [] => none
  | c :: cs =>
    match tryAltRgb (c :: cs) with
    | some m => some (String.mk m)
    | none =>
      match tryAltHashWorker (c :: cs) with
      | some m => some (String.mk m)
      | none =>
        match tryAltAlpha (c :: cs) with
        | some m => some (String.mk m)
        | none => regexColorWorker cs

/-- Leftmost match of the regex digit-run followed by a percent sign,
returning the digit run.  A digit run not followed by a percent sign
cannot match at any interior start either, so scanning continues after
its head. -/
def regexPercent : List Char → Option (List Char)
  | [] => none
  | c :: cs =>
    if c.isDigit then
      let run := (c :: cs).takeWhile Char.isDigit
      match (c :: cs).drop run.length with
      | '%' :: _ => some run
      | _ => regexPercent cs
    else regexPercent cs

/-- Rational value of a matched digit run. -/
def digitsVal (run : List Char) : ℚ := (natOfDigits (run.map digitVal) : ℚ)

/-! ### Gradient records of the three parsers

WebEngine.jsx keeps CSS color strings and positions; styleWorker.js keeps
hex color numbers with an alpha and an offset; the legacy gradientWorker.js
keeps color strings and a possibly-NaN position. -/

/-- Color stop of WebEngine.jsx parseColorStops. -/
structure EngineStop where
  color : String
  position : ℚ
deriving DecidableEq, Repr

/-- Gradient record of WebEngine.jsx parseGradient. -/
inductive EngineGradient where
  | linear (angle : JNum) (stops : List EngineStop)
  | radial (stops : List EngineStop)
deriving DecidableEq, Repr

/-- Color stop of styleWorker.js parseColorStops: hex number (NaN possible
from an unparsable hash color), alpha, offset. -/
structure WorkerStop where
  color : Option ℤ
  alpha : JNum
  offset : JNum
deriving DecidableEq, Repr

/-- Gradient record of styleWorker.js parseGradient. -/
inductive WorkerGradient where
  | linear (angle : ℚ) (stops : List WorkerStop)
  | radial (stops : List WorkerStop)
deriving DecidableEq, Repr

/-- Color stop of legacy gradientWorker.js parseColorStops. -/
structure LegacyStop where
  color : String
  position : JNum
deriving DecidableEq, Repr

/-- Gradient record of legacy gradientWorker.js parseGradient. -/
inductive LegacyGradient where
  | linear (angle : JNum) (stops : List LegacyStop)
  | radial (stops : List LegacyStop)
deriving DecidableEq, Repr

/-! ### WebEngine.jsx gradient parsing (lines 587-712) -/

/-- Loop of WebEngine.jsx parseColorStops over the parts after startIdx;
j is i minus startIdx and denom the already-guarded implicit-position
denominator. -/
def webStopsGo (denom : ℚ) : List String → ℕ → List EngineStop
  | [], _ => []
  | stop :: more, j =>
    match regexColorEngine stop.toList with
    | some color =>
      let position : ℚ :=
        match regexPercent stop.toList with
        | some run => digitsVal run / 100
        | none => (j : ℚ) / denom
      ⟨color, position⟩ :: webStopsGo denom more (j + 1)
    | none => webStopsGo denom more (j + 1)

/-- WebEngine.jsx parseColorStops: implicit positions are distributed over
the index range, with the denominator parts.length - startIdx - 1 guarded
by or-one. -/
def webParseColorStops (parts : List String) (startIdx : ℕ) : List EngineStop :=
  let rest := parts.drop startIdx
  let d := rest.length - 1
  webStopsGo (if d = 0 then 1 else (d : ℚ)) rest 0

/-- Angle of the engine's to-direction branch: four sequential includes
checks in source order right, left, top, bottom, each overwriting the
angle. -/
def webDirectionAngle (direction : String) : ℚ :=
  let a1 : ℚ := if strContains direction "right" then 90 else 180
  let a2 : ℚ := if strContains direction "left" then 270 else a1
  let a3 : ℚ := if strContains direction "top" then 0 else a2
  if strContains direction "bottom" then 180 else a3

/-- WebEngine.jsx parseLinearGradient. -/
def webParseLinearGradient (content : String) : EngineGradient :=
  let parts := splitTopLevel content
  let firstPart := parts.headD ""
  if strContains firstPart "deg" then
    .linear (jsParseFloat firstPart) (webParseColorStops parts 1)
  else if strContains firstPart "to " then
    .linear (some (webDirectionAngle (strLower firstPart))) (webParseColorStops parts 1)
  else
    .linear (some 180) (webParseColorStops parts 0)

/-- WebEngine.jsx parseRadialGradient: skip a leading shape or position
part when present. -/
def webParseRadialGradient (content : String) : EngineGradient :=
  let parts := splitTopLevel content
  let firstPart := parts.headD ""
  let hasShape := strContains firstPart "circle" || strContains firstPart "ellipse"
      || strContains firstPart "at "
  .radial (webParseColorStops parts (if hasShape then 1 else 0))

/-- WebEngine.jsx parseGradient: split top-level layers, take the first,
match linear-gradient then radial-gradient. -/
def webParseGradient (bgImage : String) : Option EngineGradient :=
  if ¬ truthyStr bgImage || bgImage = "none" then none
  else
    let cleanBg := (splitTopLevel bgImage).headD ""
    match matchGradientContent cleanBg "linear-gradient(" with
    | some content => some (webParseLinearGradient (strTrim content))
    | none =>
      match matchGradientContent cleanBg "radial-gradient(" with
      | some content => some (webParseRadialGradient (strTrim content))
      | none => none

/-! ### styleWorker.js color parsing (lines 7-45) -/

/-- Leading run of hexadecimal digits parsed as a number, NaN when the
first character is not a hex digit (JS parseInt with radix 16). -/
def parseIntHex (cs : List Char) : Option ℤ :=
  let run := cs.takeWhile isHexChar
  if run.isEmpty then none
  else some ((run.foldl (fun a c =>
    a * 16 + (if c.isDigit then c.toNat - 48
              else if 'a' ≤ c ∧ c ≤ 'f' then c.toNat - 87
              else c.toNat - 55)) 0 : ℕ) : ℤ)

/-- Result record of styleWorker.js parseColor; hex is NaN for an
unparsable hash color. -/
structure ColorData where
  hex : Option ℤ
  alpha : JNum
deriving DecidableEq, Repr

/-- Maximal runs of characters matching [\d.] (the worker's rgb value
regex with the g flag). -/
def digitDotRuns : List Char → List String
  | [] => []
  | c :: cs =>
    if c.isDigit || c = '.' then
      let run := (c :: cs).takeWhile (fun ch => ch.isDigit || ch = '.')
      String.mk run :: digitDotRuns ((c :: cs).drop run.length)
    else digitDotRuns cs
termination_by cs => cs.length
decreasing_by
  all_goals simp_wf
  have h : 1 ≤ ((c :: cs).takeWhile (fun ch => ch.isDigit || ch = '.')).length := by
    rename_i hc
    simp only [List.takeWhile]
    rw [hc]
    simp
  omega

/-- Named color table of styleWorker.js parseColor. -/
def namedColorHex (s : String) : Option ℤ :=
  if s = "white" then some 0xffffff
  else if s = "black" then some 0x000000
  else if s = "red" then some 0xff0000
  else if s = "green" then some 0x008000
  else if s = "blue" then some 0x0000ff
  else if s = "yellow" then some 0xffff00
  else if s = "orange" then some 0xffa500
  else if s = "gray" then some 0x808080
  else if s = "grey" then some 0x808080
  else if s = "purple" then some 0x800080
  else if s = "pink" then some 0xffc0cb
  else if s = "transparent" then some 0xffffff
  else none

/-- JS bitwise combination r shifted 16 or g shifted 8 or b; a NaN
component is coerced to 0 by the shift.  The worker's rgb value regex
matches no sign, so components are nonnegative. -/
def rgbCombine (r g b : Option ℤ) : ℤ :=
  let rn := (r.getD 0).toNat
  let gn := (g.getD 0).toNat
  let bn := (b.getD 0).toNat
  ((Nat.lor (Nat.lor (rn <<< 16) (gn <<< 8)) bn : ℕ) : ℤ)

/-- styleWorker.js parseColor. -/
def workerParseColor (cssColor : String) : ColorData :=
  if ¬ truthyStr cssColor || cssColor = "transparent" then ⟨some 0xffffff, some 0⟩
  else if strStarts cssColor "#" then
    let hex := cssColor.toList.drop 1
    if hex.length = 3 then
      let fullHex := hex.flatMap (fun c => [c, c])
      ⟨parseIntHex fullHex, some 1⟩
    else if hex.length = 8 then
      ⟨parseIntHex (hex.take 6), (parseIntHex (hex.drop 6)).map (fun v => (v : ℚ) / 255)⟩
    else ⟨parseIntHex hex, some 1⟩
  else if strStarts cssColor "rgb" then
    let values := digitDotRuns cssColor.toList
    match values with
    | [] =>
      match namedColorHex (strLower cssColor) with
      | some c => ⟨some c, some (if strLower cssColor = "transparent" then 0 else 1)⟩
      | none => ⟨some 0xcccccc, some 1⟩
    | _ :: _ =>
      let r := jsParseInt (values.getD 0 "")
      let g := match values.get? 1 with | some v => jsParseInt v | none => none
      let b := match values.get? 2 with | some v => jsParseInt v | none => none
      let a : JNum := match values.get? 3 with | some v => jsParseFloat v | none => some 1
      ⟨some (rgbCombine r g b), a⟩
  else
    match namedColorHex (strLower cssColor) with
    | some c => ⟨some c, some (if strLower cssColor = "transparent" then 0 else 1)⟩
    | none => ⟨some 0xcccccc, some 1⟩

/-! ### styleWorker.js gradient parsing (lines 47-136) -/

/-- Loop of styleWorker.js parseColorStops; i counts from startIdx and the
implicit offset divides by parts.length - startIdx - 1 unguarded, which is
NaN for a single stop (the numerator is 0 exactly when the denominator
is). -/
def workerStopsGo (denom : ℤ) : List String → ℕ → List WorkerStop
  | [], _ => []
  | part :: more, j =>
    match regexColorWorker part.toList with
    | some m =>
      let colorData := workerParseColor m
      let offset : JNum :=
        match regexPercent (strTrim (strDropFirst part m)).toList with
        | some run => some (digitsVal run / 100)
        | none => jnDiv (some (j : ℚ)) (some (denom : ℚ))
      ⟨colorData.hex, colorData.alpha, offset⟩ :: workerStopsGo denom more (j + 1)
    | none => workerStopsGo denom more (j + 1)

/-- styleWorker.js parseColorStops. -/
def workerParseColorStops (parts : List String) (startIdx : ℕ) : List WorkerStop :=
  let rest := parts.drop startIdx
  workerStopsGo ((rest.length : ℤ) - 1) rest 0

/-- Angle of the style worker's to-direction branch: four sequential
includes checks in source order bottom, top, right, left. -/
def workerDirectionAngle (dir : String) : ℚ :=
  let a1 : ℚ := if strContains dir "bottom" then 180 else 180
  let a2 : ℚ := if strContains dir "top" then 0 else a1
  let a3 : ℚ := if strContains dir "right" then 90 else a2
  if strContains dir "left" then 270 else a3

/-- styleWorker.js parseLinearGradient; a deg first part goes through
parseFloat or-180, so 0deg falls back to 180. -/
def workerParseLinearGradient (content : String) : WorkerGradient :=
  let parts := splitTopLevel content
  let firstPart := parts.headD ""
  if strContains firstPart "deg" then
    .linear (jsOrQ (jsParseFloat firstPart) 180) (workerParseColorStops parts 1)
  else if strContains firstPart "to " then
    .linear (workerDirectionAngle (strLower firstPart)) (workerParseColorStops parts 1)
  else
    .linear 180 (workerParseColorStops parts 0)

/-- styleWorker.js parseRadialGradient (no shape skipping). -/
def workerParseRadialGradient (content : String) : WorkerGradient :=
  .radial (workerParseColorStops (splitTopLevel content) 0)

/-- styleWorker.js parseGradient. -/
def workerParseGradient (bgImage : String) : Option WorkerGradient :=
  if ¬ truthyStr bgImage || bgImage = "none" then none
  else
    let cleanBg := (splitTopLevel bgImage).headD ""
    match matchGradientContent cleanBg "linear-gradient(" with
    | some content => some (workerParseLinearGradient (strTrim content))
    | none =>
      match matchGradientContent cleanBg "radial-gradient(" with
      | some content => some (workerParseRadialGradient (strTrim content))
      | none => none

/-! ### Legacy gradientWorker.js gradient parsing (lines 8-96)

The legacy worker splits with the regex comma negative-lookahead
non-open-paren-run close-paren: a comma splits exactly when no close
parenthesis occurs before the next open parenthesis in the remainder. -/

/-- Whether a close parenthesis occurs before any open parenthesis. -/
def closeBeforeOpen : List Char → Bool
  | [] => false
  | ')' :: _ => true
  | '(' :: _ => false
  | _ :: rest => closeBeforeOpen rest

/-- Split at commas whose lookahead fails, keeping chunks untrimmed. -/
def legacySplitGo : List Char → List Char → List String
  | [], acc => [String.mk acc.reverse]
  | c :: cs, acc =>
    if c = ',' ∧ ¬ closeBeforeOpen cs then
      String.mk acc.reverse :: legacySplitGo cs []
    else legacySplitGo cs (c :: acc)

/-- Model of split on the legacy comma lookahead regex followed by a trim
of every part. -/
def legacySplit (s : String) : List String :=
  (legacySplitGo s.toList []).map strTrim

/-- Tail matcher of the legacy stop regex: whitespace-run then an optional
digit-run with percent sign, anchored at the end.  Returns the matched
digit run (none when the optional group is empty), or none overall when
the tail does not match. -/
def legacyTailMatch (cs : List Char) : Option (Option (List Char)) :=
  let rest := cs.dropWhile Char.isWhitespace
  if rest.isEmpty then some none
  else
    let ds := rest.takeWhile Char.isDigit
    if ds.isEmpty then none
    else
      match rest.drop ds.length with
      | ['%'] => some (some ds)
      | _ => none

/-- Lazy group-one scan of the legacy stop regex caret lazy-one-plus
whitespace-run optional-percent dollar: grow group one from the left until
the remainder matches the tail. -/
def legacyStopScan : List Char → List Char → Option (List Char × Option (List Char))
  | _, [] => none
  | acc, c :: cs =>
    match legacyTailMatch cs with
    | some pct => some ((c :: acc).reverse, pct)
    | none => legacyStopScan (c :: acc) cs

/-- Loop of legacy gradientWorker.js parseColorStops; the implicit position
denominator parts.length - startIdx - 1 is unguarded, giving NaN for a
single stop. -/
def legacyStopsGo (denom : ℤ) : List String → ℕ → List LegacyStop
  | [], _ => []
  | part :: more, j =>
    match legacyStopScan [] (strTrim part).toList with
    | some g =>
      let color := strTrim (String.mk g.1)
      let position : JNum :=
        match g.2 with
        | some run => some (digitsVal run / 100)
        | none => jnDiv (some (j : ℚ)) (some (denom : ℚ))
      ⟨color, position⟩ :: legacyStopsGo denom more (j + 1)
    | none => legacyStopsGo denom more (j + 1)

/-- Legacy gradientWorker.js parseColorStops. -/
def legacyParseColorStops (parts : List String) (startIdx : ℕ) : List LegacyStop :=
  let rest := parts.drop startIdx
  legacyStopsGo ((rest.length : ℤ) - 1) rest 0

/-- Direction lookup table of legacy gradientWorker.js. -/
def legacyDirectionMap (dir : String) : Option ℚ :=
  if dir = "top" then some 0
  else if dir = "right" then some 90
  else if dir = "bottom" then some 180
  else if dir = "left" then some 270
  else if dir = "top right" then some 45
  else if dir = "bottom right" then some 135
  else if dir = "bottom left" then some 225
  else if dir = "top left" then some 315
  else none

/-- Legacy gradientWorker.js parseLinearGradient: the direction branch is
directionMap lookup or-180, so the top entry 0 is falsy and becomes 180. -/
def legacyParseLinearGradient (content : String) : LegacyGradient :=
  let parts := legacySplit content
  let firstPart := parts.headD ""
  if strContains firstPart "deg" then
    .linear (jsParseFloat firstPart) (legacyParseColorStops parts 1)
  else if strStarts firstPart "to " then
    let direction := strDropFirst firstPart "to "
    let angle : ℚ :=
      match legacyDirectionMap direction with
      | some v => if v = 0 then 180 else v
      | none => 180
    .linear (some angle) (legacyParseColorStops parts 1)
  else
    .linear (some 180) (legacyParseColorStops parts 0)

/-- Legacy gradientWorker.js parseRadialGradient. -/
def legacyParseRadialGradient (content : String) : LegacyGradient :=
  .radial (legacyParseColorStops (legacySplit content) 0)

/-- Legacy gradientWorker.js parseGradient: no layer splitting, the
linear or radial match runs on the whole background-image string (its
regex lacks the s flag, but the embedded inputs are single-line). -/
def legacyParseGradient (bgImage : String) : Option LegacyGradient :=
  if ¬ truthyStr bgImage || bgImage = "none" then none
  else
    match matchGradientContent bgImage "linear-gradient(" with
    | some content => some (legacyParseLinearGradient content)
    | none =>
      match matchGradientContent bgImage "radial-gradient(" with
      | some content => some (legacyParseRadialGradient content)
      | none => none

/-- Angle projection of an engine gradient record (NaN for radial, which
stores no angle). -/
def engineAngle : EngineGradient → JNum
  | .linear a _ => a
  | .radial _ => none

/-- Angle projection of a style worker gradient record. -/
def workerAngle : WorkerGradient → JNum
  | .linear a _ => some a
  | .radial _ => none

/-- Angle projection of a legacy worker gradient record. -/
def legacyAngle : LegacyGradient → JNum
  | .linear a _ => a
  | .radial _ => none

/-! ## Claim C2: clip composition by rectangle intersection -/

/-- C2: clip regions compose by axis-aligned rectangle intersection: the
composed clip admits exactly the points interior to both the parent clip
and the node's own region; when the intersection is empty or degenerate in
either axis the result is the zero-area clip x 0, y 0, width 0, height 0,
radius 0 (node fully hidden); and in the overlapping case the result is
the literal intersection rectangle carrying the node's own radius.  The
function is total, so no error is possible. -/
theorem c2_clip_intersection (p m : ClipRegion) :
    (∀ px py, pointInInterior px py (clipIntersect p m) ↔
      pointInInterior px py p ∧ pointInInterior px py m)
    ∧ ((min (p.x + p.width) (m.x + m.width) ≤ max p.x m.x ∨
        min (p.y + p.height) (m.y + m.height) ≤ max p.y m.y) →
       clipIntersect p m = zeroClip)
    ∧ (max p.x m.x < min (p.x + p.width) (m.x + m.width) →
       max p.y m.y < min (p.y + p.height) (m.y + m.height) →
       clipIntersect p m = ⟨max p.x m.x, max p.y m.y,
         min (p.x + p.width) (m.x + m.width) - max p.x m.x,
         min (p.y + p.height) (m.y + m.height) - max p.y m.y, m.radius⟩) := by
  simp only [clipIntersect]
  split_ifs with h
  · obtain ⟨hx, hy⟩ := h
    refine ⟨?_, ?_, ?_⟩
    · intro px py
      have ex : max p.x m.x + (min (p.x + p.width) (m.x + m.width) - max p.x m.x)
          = min (p.x + p.width) (m.x + m.width) := by ring
      have ey : max p.y m.y + (min (p.y + p.height) (m.y + m.height) - max p.y m.y)
          = min (p.y + p.height) (m.y + m.height) := by ring
      simp only [pointInInterior, ex, ey, max_lt_iff, lt_min_iff]
      tauto
    · intro hdeg
      rcases hdeg with hd | hd
      · exact absurd hx (not_lt.mpr hd)
      · exact absurd hy (not_lt.mpr hd)
    · intro _ _
      rfl
  · push_neg at h
    refine ⟨?_, fun _ => rfl, ?_⟩
    · intro px py
      constructor
      · intro hz
        exfalso
        simp only [zeroClip, pointInInterior] at hz
        have h0 : (0 : ℚ) + 0 = 0 := by norm_num
        obtain ⟨h1, h2, _, _⟩ := hz
        rw [h0] at h2
        linarith
      · rintro ⟨hp, hm⟩
        exfalso
        simp only [pointInInterior] at hp hm
        rcases lt_or_le (max p.x m.x) (min (p.x + p.width) (m.x + m.width)) with hx | hx
        · have hy := h hx
          have l1 : max p.y m.y < py := max_lt_iff.mpr ⟨hp.2.2.1, hm.2.2.1⟩
          have l2 : py < min (p.y + p.height) (m.y + m.height) :=
            lt_min_iff.mpr ⟨hp.2.2.2, hm.2.2.2⟩
          linarith
        · have l1 : max p.x m.x < px := max_lt_iff.mpr ⟨hp.1, hm.1⟩
          have l2 : px < min (p.x + p.width) (m.x + m.width) :=
            lt_min_iff.mpr ⟨hp.2.1, hm.2.1⟩
          linarith
    · intro hx hy
      exact absurd (h hx) (not_le.mpr hy)

/-- Witness for C2: a parent clip at the origin and a disjoint node region
collapse to the zero clip, and an overlapping pair produces the literal
intersection rectangle with the node's radius. -/
theorem c2_clip_intersection_witness :
    clipIntersect ⟨0, 0, 10, 10, some 0⟩ ⟨20, 20, 5, 5, some 3⟩ = zeroClip
    ∧ clipIntersect ⟨0, 0, 10, 10, some 0⟩ ⟨5, 5, 10, 10, some 1⟩ = ⟨5, 5, 5, 5, some 1⟩ := by
  constructor
  · exact (c2_clip_intersection ⟨0, 0, 10, 10, some 0⟩ ⟨20, 20, 5, 5, some 3⟩).2.1
      (by norm_num)
  · have h := (c2_clip_intersection ⟨0, 0, 10, 10, some 0⟩ ⟨5, 5, 10, 10, some 1⟩).2.2
      (by norm_num) (by norm_num)
    rw [h]
    norm_num

/-! ## Claim C3: linear-gradient angle parsing

The claim asserts that all the linear-gradient parsers map diagonal
directions via the sum of their components, with to bottom right giving
135.  The engine parser (WebEngine.jsx parseLinearGradient) resolves a
diagonal by four sequential overwriting includes checks and yields 180 for
to bottom right, so the claim fails. -/

/-- C3 counterexample: the engine parser maps the diagonal direction
to bottom right to angle 180, not 135 as the claim states. -/
theorem c3_counterexample :
    engineAngle (webParseLinearGradient "to bottom right, red, blue") = some 180
    ∧ ¬ engineAngle (webParseLinearGradient "to bottom right, red, blue") = some 135 := by
  constructor
  · decide
  · intro h
    rw [show engineAngle (webParseLinearGradient "to bottom right, red, blue")
        = some 180 from by decide] at h
    have : (180 : ℚ) = 135 := Option.some.inj h
    norm_num at this

/-- C3 amended: in all three parsers the angle defaults to 180 when the
first part carries neither a deg token nor a to token; a deg token sets
the angle to the parseFloat of the first part (in the style worker through
an or-180, in the other two directly); the four cardinal directions map to
top 0, right 90, bottom 180, left 270 in the engine and style-worker
parsers, while the legacy worker maps right, bottom and left the same way
but sends to top to 180 because the table entry 0 is falsy; diagonal
directions are not mapped via sums: to bottom right yields 180 in the
engine parser and 90 in the style worker, and only the legacy worker's
lookup table yields 135. -/
theorem c3_gradient_direction_angles :
    (∀ content : String,
      (strContains ((splitTopLevel content).headD "") "deg" = false →
       strContains ((splitTopLevel content).headD "") "to " = false →
       engineAngle (webParseLinearGradient content) = some 180
       ∧ workerAngle (workerParseLinearGradient content) = some 180)
      ∧ (strContains ((legacySplit content).headD "") "deg" = false →
         strStarts ((legacySplit content).headD "") "to " = false →
         legacyAngle (legacyParseLinearGradient content) = some 180)
      ∧ (strContains ((splitTopLevel content).headD "") "deg" = true →
         engineAngle (webParseLinearGradient content)
           = jsParseFloat ((splitTopLevel content).headD "")
         ∧ workerAngle (workerParseLinearGradient content)
           = some (jsOrQ (jsParseFloat ((splitTopLevel content).headD "")) 180))
      ∧ (strContains ((legacySplit content).headD "") "deg" = true →
         legacyAngle (legacyParseLinearGradient content)
           = jsParseFloat ((legacySplit content).headD "")))
    ∧ engineAngle (webParseLinearGradient "to top, red, blue") = some 0
    ∧ engineAngle (webParseLinearGradient "to right, red, blue") = some 90
    ∧ engineAngle (webParseLinearGradient "to bottom, red, blue") = some 180
    ∧ engineAngle (webParseLinearGradient "to left, red, blue") = some 270
    ∧ workerAngle (workerParseLinearGradient "to top, red, blue") = some 0
    ∧ workerAngle (workerParseLinearGradient "to right, red, blue") = some 90
    ∧ workerAngle (workerParseLinearGradient "to bottom, red, blue") = some 180
    ∧ workerAngle (workerParseLinearGradient "to left, red, blue") = some 270
    ∧ legacyAngle (legacyParseLinearGradient "to top, red, blue") = some 180
    ∧ legacyAngle (legacyParseLinearGradient "to right, red, blue") = some 90
    ∧ legacyAngle (legacyParseLinearGradient "to bottom, red, blue") = some 180
    ∧ legacyAngle (legacyParseLinearGradient "to left, red, blue") = some 270
    ∧ engineAngle (webParseLinearGradient "to bottom right, red, blue") = some 180
    ∧ workerAngle (workerParseLinearGradient "to bottom right, red, blue") = some 90
    ∧ legacyAngle (legacyParseLinearGradient "to bottom right, red, blue") = some 135 := by
  refine ⟨?_, by decide, by decide, by decide, by decide, by decide, by decide, by decide,
    by decide, by decide, by decide, by decide, by decide, by decide, by decide, by decide⟩
  intro content
  refine ⟨?_, ?_, ?_, ?_⟩
  · intro hdeg hto
    rw [List.headD_eq_head?] at hdeg hto
    constructor
    · simp [webParseLinearGradient, engineAngle, hdeg, hto]
    · simp [workerParseLinearGradient, workerAngle, hdeg, hto]
  · intro hdeg hto
    rw [List.headD_eq_head?] at hdeg hto
    simp [legacyParseLinearGradient, legacyAngle, hdeg, hto]
  · intro hdeg
    rw [List.headD_eq_head?] at hdeg
    constructor
    · simp [webParseLinearGradient, engineAngle, hdeg, List.headD_eq_head?]
    · simp [workerParseLinearGradient, workerAngle, hdeg, List.headD_eq_head?]
  · intro hdeg
    rw [List.headD_eq_head?] at hdeg
    simp [legacyParseLinearGradient, legacyAngle, hdeg, List.headD_eq_head?]

/-- Witness for C3 amended: the universally quantified parts applied to a
plain stop list (default 180 in all three parsers) and to a 45deg first
part. -/
theorem c3_gradient_direction_angles_witness :
    (engineAngle (webParseLinearGradient "red, blue") = some 180
      ∧ workerAngle (workerParseLinearGradient "red, blue") = some 180)
    ∧ legacyAngle (legacyParseLinearGradient "red, blue") = some 180
    ∧ (engineAngle (webParseLinearGradient "45deg, red, blue") = jsParseFloat "45deg"
      ∧ workerAngle (workerParseLinearGradient "45deg, red, blue")
        = some (jsOrQ (jsParseFloat "45deg") 180))
    ∧ legacyAngle (legacyParseLinearGradient "45deg, red, blue") = jsParseFloat "45deg" := by
  have h1 := ((c3_gradient_direction_angles.1 "red, blue").1 (by decide) (by decide))
  have h2 := ((c3_gradient_direction_angles.1 "red, blue").2.1 (by decide) (by decide))
  have h3 := ((c3_gradient_direction_angles.1 "45deg, red, blue").2.2.1 (by decide))
  have h4 := ((c3_gradient_direction_angles.1 "45deg, red, blue").2.2.2 (by decide))
  have e1 : (splitTopLevel "45deg, red, blue").headD "" = "45deg" := by decide
  have e2 : (legacySplit "45deg, red, blue").headD "" = "45deg" := by decide
  rw [e1] at h3
  rw [e2] at h4
  exact ⟨h1, h2, h3, h4⟩

/-! ## Flex layout (WebEngine.jsx FlexNode, lines 1978-2207; the identical
code also appears in CanvasEngine.jsx lines 656-752)

Child props are JS values (number, string or undefined). -/

/-- A JS property value: number, string, or undefined. -/
inductive JsVal where
  | num (q : ℚ)
  | str (s : String)
  | undef
deriving DecidableEq, Repr

/-- JS truthiness of a property value (NaN does not occur among the
embedded props). -/
def truthyVal : JsVal → Bool
  | .num q => q ≠ 0
  | .str s => s ≠ ""
  | .undef => false

/-- JS parseFloat applied to a property value; a number round-trips
through its decimal string, a string is parsed, undefined is NaN. -/
def jsParseFloatVal : JsVal → JNum
  | .num q => some q
  | .str s => jsParseFloat s
  | .undef => none

/-- Model of JS String.prototype.endsWith. -/
def strEnds (s pat : String) : Bool := chLeads pat.toList.reverse s.toList.reverse

/-- WebEngine.jsx parseSize (lines 20-29): numbers pass through, falsy
values give 0, px and percent suffixes are parsed (a percent resolves
against the base), auto gives 0, anything else is parseFloat or-0.  The
px branch returns parseFloat directly, which can be NaN. -/
def parseSize (value : JsVal) (base : ℚ) : JNum :=
  match value with
  | .num q => some q
  | .undef => some 0
  | .str s =>
    if s = "" then some 0
    else if strEnds s "px" then jsParseFloat s
    else if strEnds s "%" then (jsParseFloat s).map (fun v => v / 100 * base)
    else if s = "auto" then some 0
    else some (jsOrQ (jsParseFloat s) 0)

/-- A flex child as far as calculateFlexSizes reads it: the flexBasis,
flexGrow and flexShrink props plus the measured intrinsic main-axis
size. -/
structure FlexChild where
  flexBasis : JsVal
  flexGrow : JsVal
  flexShrink : JsVal
  intrinsicMain : ℚ
deriving DecidableEq, Repr

/-- Base size of a flex child (calculateFlexSizes step 1): an explicit
truthy non-auto flexBasis parsed against the available space, otherwise
the intrinsic main-axis size. -/
def flexBaseSize (c : FlexChild) (availableSpace : ℚ) : JNum :=
  if truthyVal c.flexBasis ∧ c.flexBasis ≠ .str "auto" then parseSize c.flexBasis availableSpace
  else some c.intrinsicMain

/-- Grow weight: parseFloat of the flexGrow prop or-0. -/
def growWeight (c : FlexChild) : ℚ := jsOrQ (jsParseFloatVal c.flexGrow) 0

/-- Shrink weight: parseFloat of the flexShrink prop or-1 (so an explicit
0 is falsy and becomes 1). -/
def shrinkWeight (c : FlexChild) : ℚ := jsOrQ (jsParseFloatVal c.flexShrink) 1

/-- JS subtraction on possibly-NaN numbers. -/
def jnSub (a b : JNum) : JNum :=
  match a, b with
  | some x, some y => some (x - y)
  | _, _ => none

/-- Sum of the base sizes (the reduce with initial 0 in
calculateFlexSizes); NaN propagates. -/
def flexTotalBase (children : List FlexChild) (availableSpace : ℚ) : JNum :=
  (children.map (fun c => flexBaseSize c availableSpace)).foldl jnAdd (some 0)

/-- Remaining space after the total gap and the base sizes. -/
def flexRemaining (children : List FlexChild) (availableSpace gap : ℚ) : JNum :=
  jnSub (some (availableSpace - gap * ((children.length : ℚ) - 1)))
    (flexTotalBase children availableSpace)

/-- Total grow weight. -/
def flexTotalGrow (children : List FlexChild) : ℚ :=
  children.foldl (fun s c => s + growWeight c) 0

/-- Total shrink weight. -/
def flexTotalShrink (children : List FlexChild) : ℚ :=
  children.foldl (fun s c => s + shrinkWeight c) 0

/-- WebEngine.jsx FlexNode.calculateFlexSizes (lines 2077-2124).  The
source initializes sizes to the base sizes and mutates sizes at i in a
forEach; since entry i depends only on child i this is written as a map
over the children.  In the grow and shrink branches the remaining space
is known to be a number (a NaN remaining space fails both comparisons),
so it is extracted with a default that is never used. -/
def calculateFlexSizes (children : List FlexChild) (availableSpace gap : ℚ) : List JNum :=
  let remainingSpace := flexRemaining children availableSpace gap
  if jnGt remainingSpace (some 0) then
    let totalGrow := flexTotalGrow children
    if 0 < totalGrow then
      children.map (fun c =>
        jnAdd (flexBaseSize c availableSpace)
          (some (remainingSpace.getD 0 * growWeight c / totalGrow)))
    else children.map (fun c => flexBaseSize c availableSpace)
  else if jnGt (some 0) remainingSpace then
    let totalShrink := flexTotalShrink children
    if 0 < totalShrink then
      children.map (fun c =>
        (flexBaseSize c availableSpace).map (fun b =>
          max 0 (b - |remainingSpace.getD 0| * shrinkWeight c / totalShrink)))
    else children.map (fun c => flexBaseSize c availableSpace)
  else children.map (fun c => flexBaseSize c availableSpace)

/-! ## Claim C4: flex base sizes and grow/shrink distribution -/

/-- C4: each child's base size is its explicit flexBasis when truthy and
not auto, otherwise its intrinsic main-axis size; with positive remaining
space r and positive total grow weight, child i receives its base size
plus r times its grow weight over the total; with negative remaining
space and positive total shrink weight, child i shrinks from its base
size in proportion to its shrink weight, floored at zero. -/
theorem c4_flex_size_distribution (children : List FlexChild) (availableSpace gap : ℚ)
    (r : ℚ) (hr : flexRemaining children availableSpace gap = some r) :
    (∀ c : FlexChild,
      ((truthyVal c.flexBasis ∧ c.flexBasis ≠ .str "auto") →
        flexBaseSize c availableSpace = parseSize c.flexBasis availableSpace)
      ∧ (¬ (truthyVal c.flexBasis ∧ c.flexBasis ≠ .str "auto") →
        flexBaseSize c availableSpace = some c.intrinsicMain))
    ∧ (0 < r → 0 < flexTotalGrow children →
      ∀ (i : ℕ) (c : FlexChild), children[i]? = some c →
        (calculateFlexSizes children availableSpace gap)[i]?
          = some (jnAdd (flexBaseSize c availableSpace)
              (some (r * growWeight c / flexTotalGrow children))))
    ∧ (r < 0 → 0 < flexTotalShrink children →
      ∀ (i : ℕ) (c : FlexChild), children[i]? = some c →
        (calculateFlexSizes children availableSpace gap)[i]?
          = some ((flexBaseSize c availableSpace).map (fun b =>
              max 0 (b - |r| * shrinkWeight c / flexTotalShrink children)))) := by
  refine ⟨?_, ?_, ?_⟩
  · intro c
    constructor
    · intro h
      simp [flexBaseSize, h]
    · intro h
      simp [flexBaseSize, h]
  · intro hpos hgrow i c hc
    have hgt : jnGt (flexRemaining children availableSpace gap) (some 0) = true := by
      rw [hr]; simpa [jnGt] using hpos
    simp only [calculateFlexSizes]
    rw [hgt]
    simp only [if_true, hgrow, if_pos]
    rw [List.getElem?_map, hc, hr]
    simp
  · intro hneg hshrink i c hc
    have hgt : jnGt (flexRemaining children availableSpace gap) (some 0) = false := by
      rw [hr]; simp [jnGt]; linarith
    have hlt : jnGt (some 0) (flexRemaining children availableSpace gap) = true := by
      rw [hr]; simpa [jnGt] using hneg
    simp only [calculateFlexSizes]
    rw [hgt, hlt]
    simp only [Bool.false_eq_true, if_false, if_true, hshrink, if_pos]
    rw [List.getElem?_map, hc, hr]
    simp

/-- The three-child scenario of the spec: flexGrow 0, 2 and 1 with 90
units of free space. -/
def c4Demo : List FlexChild :=
  [⟨.undef, .num 0, .undef, 10⟩, ⟨.undef, .num 2, .undef, 10⟩, ⟨.undef, .num 1, .undef, 10⟩]

/-- Witness for C4: the scenario children receive 0, 60 and 30 additional
units respectively (sizes 10, 70, 40 from base 10 each). -/
theorem c4_flex_size_distribution_witness :
    (calculateFlexSizes c4Demo 120 0)[0]? = some (some 10)
    ∧ (calculateFlexSizes c4Demo 120 0)[1]? = some (some 70)
    ∧ (calculateFlexSizes c4Demo 120 0)[2]? = some (some 40) := by
  have hr : flexRemaining c4Demo 120 0 = some 90 := by with_unfolding_all decide
  have h := (c4_flex_size_distribution c4Demo 120 0 90 hr).2.1 (by norm_num)
    (by with_unfolding_all decide)
  refine ⟨?_, ?_, ?_⟩
  · rw [h 0 ⟨.undef, .num 0, .undef, 10⟩ rfl]
    with_unfolding_all decide
  · rw [h 1 ⟨.undef, .num 2, .undef, 10⟩ rfl]
    with_unfolding_all decide
  · rw [h 2 ⟨.undef, .num 1, .undef, 10⟩ rfl]
    with_unfolding_all decide

/-! ## Main-axis positioning (WebEngine.jsx FlexNode.calculateMainAxisPositions,
lines 2126-2173; identical in CanvasEngine.jsx lines 705-752) -/

/-- Initial cursor of the justifyContent switch (the default of the switch
leaves the cursor at 0).  For empty children the space-around and
space-evenly divisions are never consumed, since the position loop yields
the empty list. -/
def justifyInitial (justifyContent : String) (freeSpace : ℚ) (n : ℕ) : ℚ :=
  if justifyContent = "flex-start" then 0
  else if justifyContent = "flex-end" then freeSpace
  else if justifyContent = "center" then freeSpace / 2
  else if justifyContent = "space-between" then 0
  else if justifyContent = "space-around" then freeSpace / ((n : ℚ) * 2)
  else if justifyContent = "space-evenly" then freeSpace / ((n : ℚ) + 1)
  else 0

/-- Advance added between consecutive items (the body of the loop when i
is not the last index): the configured gap plus the per-junction share of
free space for the space-dash variants. -/
def justifyAdvance (justifyContent : String) (freeSpace gap : ℚ) (n : ℕ) : ℚ :=
  if justifyContent = "space-between" ∧ 1 < n then gap + freeSpace / ((n : ℚ) - 1)
  else if justifyContent = "space-around" then gap + freeSpace / (n : ℚ)
  else if justifyContent = "space-evenly" then gap + freeSpace / ((n : ℚ) + 1)
  else gap

/-- The position loop: push the cursor for each item and advance by the
item size plus the junction advance, except after the last item. -/
def mainPositionsGo (adv : ℚ) : List ℚ → ℚ → List ℚ
  | [], _ => []
  | [_], cur => [cur]
  | s :: s2 :: rest, cur => cur :: mainPositionsGo adv (s2 :: rest) (cur + s + adv)

/-- WebEngine.jsx FlexNode.calculateMainAxisPositions: positions are
offsets from the content-box start (layout adds contentBox.x, line
2059). -/
def calculateMainAxisPositions (sizes : List ℚ) (justifyContent : String)
    (availableSpace gap : ℚ) : List ℚ :=
  let freeSpace := availableSpace - sizes.sum - gap * ((sizes.length : ℚ) - 1)
  mainPositionsGo (justifyAdvance justifyContent freeSpace gap sizes.length) sizes
    (justifyInitial justifyContent freeSpace sizes.length)

/-- Main-axis start of child i in layout (line 2059): content-box start
plus the computed position. -/
def flexChildMainStart (contentBoxStart : ℚ) (positions : List ℚ) (i : ℕ) : ℚ :=
  contentBoxStart + positions.getD i 0

/-- The position loop preserves length. -/
theorem mainPositionsGo_length (sizes : List ℚ) (adv : ℚ) :
    ∀ cur : ℚ, (mainPositionsGo adv sizes cur).length = sizes.length := by
  induction sizes with
  | nil => intro cur; rfl
  | cons s rest ih =>
    intro cur
    cases rest with
    | nil => rfl
    | cons s2 rest2 =>
      show (cur :: mainPositionsGo adv (s2 :: rest2) (cur + s + adv)).length = _
      simp [ih]

/-- Closed form of the position loop: position i is the initial cursor
plus the sum of the first i sizes plus i advances. -/
theorem mainPositionsGo_getElem (sizes : List ℚ) (adv : ℚ) :
    ∀ (cur : ℚ) (i : ℕ), i < sizes.length →
      (mainPositionsGo adv sizes cur)[i]? = some (cur + (sizes.take i).sum + (i : ℚ) * adv) := by
  induction sizes with
  | nil => intro cur i h; simp at h
  | cons s rest ih =>
    intro cur i h
    cases rest with
    | nil =>
      have hi : i = 0 := by simpa using h
      subst hi
      show some cur = _
      norm_num
    | cons s2 rest2 =>
      cases i with
      | zero =>
        show (cur :: mainPositionsGo adv (s2 :: rest2) (cur + s + adv))[0]? = _
        norm_num
      | succ j =>
        have hj : j < (s2 :: rest2).length := by
          simpa using Nat.lt_of_succ_lt_succ h
        show (cur :: mainPositionsGo adv (s2 :: rest2) (cur + s + adv))[j + 1]? = _
        rw [List.getElem?_cons_succ, ih (cur + s + adv) j hj]
        congr 1
        rw [List.take_succ_cons, List.sum_cons]
        push_cast
        ring

/-- Folding a pointwise-constant function over an index range gives the
count times the constant. -/
theorem foldl_add_const (f : ℕ → ℚ) (c : ℚ) :
    ∀ k : ℕ, (∀ i, i < k → f i = c) →
      (List.range k).foldl (fun acc i => acc + f i) 0 = (k : ℚ) * c := by
  intro k
  induction k with
  | zero => intro _; simp
  | succ m ih =>
    intro h
    rw [List.range_succ, List.foldl_append]
    have hm : ∀ i, i < m → f i = c := fun i hi => h i (Nat.lt_succ_of_lt hi)
    show (List.range m).foldl (fun acc i => acc + f i) 0 + f m = _
    rw [ih hm, h m (Nat.lt_succ_self m)]
    push_cast
    ring

/-- The space-between initial cursor is 0. -/
theorem justifyInitial_space_between (free : ℚ) (n : ℕ) :
    justifyInitial "space-between" free n = 0 := by
  unfold justifyInitial
  rw [if_neg (by decide), if_neg (by decide), if_neg (by decide), if_pos rfl]

/-- The space-between junction advance for at least two items. -/
theorem justifyAdvance_space_between (free gap : ℚ) (n : ℕ) (h : 1 < n) :
    justifyAdvance "space-between" free gap n = gap + free / ((n : ℚ) - 1) := by
  unfold justifyAdvance
  rw [if_pos ⟨rfl, h⟩]

/-! ## Claim C5: space-between placement -/

/-- C5: for justifyContent space-between with at least two children the
first position is 0, so the first child's main-axis start is exactly the
container's content-box start; each of the N-1 junctions advances by the
configured gap plus an equal share of the free space; and the total
inter-item spacing beyond the children's sizes and configured gaps equals
the free space. -/
theorem c5_space_between_positions (sizes : List ℚ) (availableSpace gap : ℚ)
    (h2 : 2 ≤ sizes.length) :
    (calculateMainAxisPositions sizes "space-between" availableSpace gap)[0]? = some 0
    ∧ (∀ cbs : ℚ,
        flexChildMainStart cbs
          (calculateMainAxisPositions sizes "space-between" availableSpace gap) 0 = cbs)
    ∧ (∀ (i : ℕ) (p1 p2 s1 : ℚ), i + 1 < sizes.length →
        (calculateMainAxisPositions sizes "space-between" availableSpace gap)[i]? = some p1 →
        (calculateMainAxisPositions sizes "space-between" availableSpace gap)[i + 1]? = some p2 →
        sizes[i]? = some s1 →
        p2 - (p1 + s1) = gap +
          (availableSpace - sizes.sum - gap * ((sizes.length : ℚ) - 1))
            / ((sizes.length : ℚ) - 1))
    ∧ ((List.range (sizes.length - 1)).foldl (fun acc i =>
          acc + ((calculateMainAxisPositions sizes "space-between" availableSpace gap).getD (i + 1) 0
            - (calculateMainAxisPositions sizes "space-between" availableSpace gap).getD i 0
            - sizes.getD i 0 - gap)) 0
        = availableSpace - sizes.sum - gap * ((sizes.length : ℚ) - 1)) := by
  have hn1 : 1 < sizes.length := by omega
  have hfree :
      calculateMainAxisPositions sizes "space-between" availableSpace gap
        = mainPositionsGo
            (gap + (availableSpace - sizes.sum - gap * ((sizes.length : ℚ) - 1))
              / ((sizes.length : ℚ) - 1))
            sizes 0 := by
    simp only [calculateMainAxisPositions]
    rw [justifyInitial_space_between, justifyAdvance_space_between _ _ _ hn1]
  have hcast : (1 : ℚ) ≤ ((sizes.length : ℚ) - 1) := by
    have : (2 : ℚ) ≤ (sizes.length : ℚ) := by exact_mod_cast h2
    linarith
  have hne : ((sizes.length : ℚ) - 1) ≠ 0 := by linarith
  set adv := gap + (availableSpace - sizes.sum - gap * ((sizes.length : ℚ) - 1))
      / ((sizes.length : ℚ) - 1) with hadv
  have hget := mainPositionsGo_getElem sizes adv 0
  have h0 : (calculateMainAxisPositions sizes "space-between" availableSpace gap)[0]? = some 0 := by
    rw [hfree, hget 0 (by omega)]
    norm_num
  refine ⟨h0, ?_, ?_, ?_⟩
  · intro cbs
    unfold flexChildMainStart
    rw [List.getD_eq_getElem?_getD, h0]
    norm_num
  · intro i p1 p2 s1 hi hp1 hp2 hs1
    rw [hfree, hget i (by omega)] at hp1
    rw [hfree, hget (i + 1) (by omega)] at hp2
    have hil : i < sizes.length := by omega
    have hsv : sizes[i] = s1 := by
      have := List.getElem?_eq_getElem hil
      rw [this] at hs1
      exact Option.some.inj hs1
    have hsum : (sizes.take (i + 1)).sum = (sizes.take i).sum + s1 := by
      rw [List.sum_take_succ sizes i hil, hsv]
    have e1 := Option.some.inj hp1
    have e2 := Option.some.inj hp2
    rw [← e1, ← e2, hsum]
    push_cast
    ring
  · have hterm : ∀ i, i < sizes.length - 1 →
        ((calculateMainAxisPositions sizes "space-between" availableSpace gap).getD (i + 1) 0
          - (calculateMainAxisPositions sizes "space-between" availableSpace gap).getD i 0
          - sizes.getD i 0 - gap)
        = (availableSpace - sizes.sum - gap * ((sizes.length : ℚ) - 1))
            / ((sizes.length : ℚ) - 1) := by
      intro i hi
      have hil : i < sizes.length := by omega
      have hi1 : i + 1 < sizes.length := by omega
      rw [List.getD_eq_getElem?_getD, List.getD_eq_getElem?_getD, List.getD_eq_getElem?_getD]
      rw [hfree, hget i hil, hget (i + 1) hi1, List.getElem?_eq_getElem hil]
      simp only [Option.getD_some]
      rw [List.sum_take_succ sizes i hil]
      push_cast
      ring
    rw [foldl_add_const _ _ (sizes.length - 1) hterm]
    have hlen : ((sizes.length - 1 : ℕ) : ℚ) = (sizes.length : ℚ) - 1 := by
      have : 1 ≤ sizes.length := by omega
      push_cast [this]
      ring
    rw [hlen]
    field_simp

/-- Witness for C5: three items of sizes 10, 20, 30 in 100 units with gap
2 give first position 0 and junction spacing 2 plus 18 beyond each item. -/
theorem c5_space_between_positions_witness :
    (calculateMainAxisPositions [10, 20, 30] "space-between" 100 2)[0]? = some 0
    ∧ (30 : ℚ) - (0 + 10) = 2 +
        (100 - ([10, 20, 30] : List ℚ).sum - 2 * ((([10, 20, 30] : List ℚ).length : ℚ) - 1))
          / ((([10, 20, 30] : List ℚ).length : ℚ) - 1) := by
  have h := c5_space_between_positions [10, 20, 30] 100 2 (by norm_num)
  refine ⟨h.1, ?_⟩
  have hp1 : (calculateMainAxisPositions [10, 20, 30] "space-between" 100 2)[1]?
      = some 30 := by
    have := mainPositionsGo_getElem ([10, 20, 30] : List ℚ) 20 0 1 (by norm_num)
    have hfree : calculateMainAxisPositions [10, 20, 30] "space-between" 100 2
        = mainPositionsGo 20 [10, 20, 30] 0 := by
      simp only [calculateMainAxisPositions]
      rw [justifyInitial_space_between, justifyAdvance_space_between _ _ _ (by norm_num)]
      norm_num
    rw [hfree, this]
    norm_num
  exact h.2.2.1 0 0 30 10 (by norm_num) h.1 hp1 (by norm_num)

/-! ## Grid track resolution (WebEngine.jsx GridNode.resolveGridTracks,
lines 2296-2333)

Track entries are strings (fr, auto, or a fixed size).  The auto-track
sizing (calculateAutoTrackSize, lines 2335-2354) reads the grid's children
and placements; it enters resolveGridTracks only through the value it
returns for a track index, so it is passed here as a function from track
index to size.  Sizes and the used-space accumulator are possibly-NaN
numbers because fixed tracks go through parseSize, whose px branch can
return NaN. -/

/-- Result of the first pass over the track list: sizes so far (fr tracks
hold 0), consumed space, and the fr tracks with their indices and
parseFloat weights. -/
structure GridPass1 where
  sizes : List JNum
  used : JNum
  frs : List (ℕ × JNum)
deriving Repr

/-- First pass of resolveGridTracks: fixed and auto tracks consume space,
fr tracks are collected with weight parseFloat of the track string. -/
def gridPass1 (autoSizeOf : ℕ → ℚ) (availableSpace : ℚ) : List String → ℕ → GridPass1
  | [], _ => ⟨[], some 0, []⟩
  | t :: ts, i =>
    let rest := gridPass1 autoSizeOf availableSpace ts (i + 1)
    if strEnds t "fr" then
      ⟨some 0 :: rest.sizes, rest.used, (i, jsParseFloat t) :: rest.frs⟩
    else if t = "auto" then
      ⟨some (autoSizeOf i) :: rest.sizes, jnAdd rest.used (some (autoSizeOf i)), rest.frs⟩
    else
      ⟨parseSize (.str t) availableSpace :: rest.sizes,
        jnAdd rest.used (parseSize (.str t) availableSpace), rest.frs⟩

/-- WebEngine.jsx GridNode.resolveGridTracks: after the first pass, the
space remaining after used space and gaps is divided among fr tracks in
proportion to their weights, but only when both the total fr weight and
the remaining space are strictly positive. -/
def resolveGridTracks (autoSizeOf : ℕ → ℚ) (tracks : List String)
    (availableSpace gap : ℚ) : List JNum :=
  let p1 := gridPass1 autoSizeOf availableSpace tracks 0
  let totalGap := gap * ((tracks.length : ℚ) - 1)
  let remaining := jnSub (jnSub (some availableSpace) p1.used) (some totalGap)
  let totalFr := p1.frs.foldl (fun a pr => jnAdd a pr.2) (some 0)
  if jnGt totalFr (some 0) && jnGt remaining (some 0) then
    p1.frs.foldl (fun sizes pr => sizes.set pr.1 (jnMul (jnDiv remaining totalFr) pr.2))
      p1.sizes
  else p1.sizes

/-- Weight of an fr track: the parsed number (0 is unreachable under the
parse-success hypothesis used below). -/
def frWeight (t : String) : ℚ := (jsParseFloat t).getD 0

/-- First pass on an all-fr track list: zero sizes, zero used space, and
the indexed weights. -/
theorem gridPass1_all_fr (autoSizeOf : ℕ → ℚ) (availableSpace : ℚ) :
    ∀ (ts : List String) (i : ℕ), (∀ t ∈ ts, strEnds t "fr" = true) →
      gridPass1 autoSizeOf availableSpace ts i
        = ⟨List.replicate ts.length (some 0), some 0,
            (List.enumFrom i ts).map (fun p => (p.1, jsParseFloat p.2))⟩ := by
  intro ts
  induction ts with
  | nil => intro i _; rfl
  | cons t rest ih =>
    intro i h
    have ht : strEnds t "fr" = true := h t (by simp)
    have hrest : ∀ u ∈ rest, strEnds u "fr" = true := fun u hu => h u (by simp [hu])
    simp only [gridPass1, ih (i + 1) hrest, ht, if_true, List.enumFrom_cons]
    rfl

/-- Setting an element just past a prefix. -/
theorem set_append_length (v b : JNum) :
    ∀ (pre l : List JNum), (pre ++ v :: l).set pre.length b = pre ++ b :: l := by
  intro pre
  induction pre with
  | nil => intro l; rfl
  | cons a pre ih => intro l; simp [List.set, ih]

/-- Applying the fr assignment fold over indexed weights past a prefix
rewrites the zero block into the scaled weights. -/
theorem grid_apply_fr (c : JNum) :
    ∀ (ts : List String) (pre : List JNum),
      ((List.enumFrom pre.length ts).map (fun p => (p.1, jsParseFloat p.2))).foldl
        (fun sizes pr => sizes.set pr.1 (jnMul c pr.2))
        (pre ++ List.replicate ts.length (some 0))
      = pre ++ ts.map (fun t => jnMul c (jsParseFloat t)) := by
  intro ts
  induction ts with
  | nil => intro pre; simp
  | cons t rest ih =>
    intro pre
    rw [List.enumFrom_cons]
    simp only [List.map_cons, List.foldl_cons, List.length_replicate]
    rw [show List.replicate (t :: rest).length (some (0 : ℚ))
        = some (0 : ℚ) :: List.replicate rest.length (some 0) from rfl]
    rw [set_append_length]
    have h1 : pre ++ jnMul c (jsParseFloat t) :: List.replicate rest.length (some 0)
        = (pre ++ [jnMul c (jsParseFloat t)]) ++ List.replicate rest.length (some 0) := by
      simp
    have h2 : pre.length + 1 = (pre ++ [jnMul c (jsParseFloat t)]).length := by
      simp
    rw [h1, h2, ih (pre ++ [jnMul c (jsParseFloat t)])]
    simp

/-- Total fr weight fold over indexed weights is the plain weight sum,
under parse success. -/
theorem grid_total_fr (ts : List String) (hp : ∀ t ∈ ts, (jsParseFloat t).isSome) :
    ∀ (i : ℕ) (init : ℚ),
      (((List.enumFrom i ts).map (fun p => (p.1, jsParseFloat p.2))).foldl
        (fun a pr => jnAdd a pr.2) (some init))
      = some (init + (ts.map frWeight).sum) := by
  induction ts with
  | nil => intro i init; simp
  | cons t rest ih =>
    intro i init
    have ht : jsParseFloat t = some (frWeight t) := by
      have := hp t (by simp)
      unfold frWeight
      cases hv : jsParseFloat t with
      | none => rw [hv] at this; simp at this
      | some v => simp [hv]
    have hrest : ∀ u ∈ rest, (jsParseFloat u).isSome := fun u hu => hp u (by simp [hu])
    rw [List.enumFrom_cons]
    simp only [List.map_cons, List.foldl_cons]
    rw [ht]
    show (((List.enumFrom (i + 1) rest).map (fun p => (p.1, jsParseFloat p.2))).foldl
        (fun a pr => jnAdd a pr.2) (jnAdd (some init) (some (frWeight t)))) = _
    rw [show jnAdd (some init) (some (frWeight t)) = some (init + frWeight t) from rfl]
    rw [ih hrest (i + 1) (init + frWeight t)]
    simp [add_assoc]

/-! ## Claim C6: fr-only grid tracks

The claim asserts that for every all-fr track list the resolved sizes are
proportional to the weights and their sum plus gaps equals the available
space.  The source only distributes when the remaining space is strictly
positive, so when the gaps consume at least the available space every fr
track stays at its initialized 0 and the sum-plus-gaps equality fails. -/

/-- C6 counterexample: two 1fr tracks with 5 units available and a gap of
10 resolve to sizes 0 and 0, whose sum plus the 10-unit gap is 10, not
the available 5. -/
theorem c6_counterexample :
    resolveGridTracks (fun _ => 50) ["1fr", "1fr"] 5 10 = [some 0, some 0]
    ∧ ¬ ((0 : ℚ) + 0 + 10 * ((2 : ℚ) - 1) = 5) := by
  constructor
  · with_unfolding_all decide
  · norm_num

/-- C6 amended: for an all-fr track list whose weights parse, with
positive total weight and with the available space strictly exceeding the
total inter-track gaps, the resolved sizes are the common factor
remaining-over-total-weight times each weight (hence proportional to the
weights), and their sum plus the total gaps equals the available space
exactly. -/
theorem c6_fr_track_distribution (autoSizeOf : ℕ → ℚ) (tracks : List String)
    (availableSpace gap : ℚ)
    (hfr : ∀ t ∈ tracks, strEnds t "fr" = true)
    (hp : ∀ t ∈ tracks, (jsParseFloat t).isSome)
    (hw : 0 < (tracks.map frWeight).sum)
    (hrem : 0 < availableSpace - gap * ((tracks.length : ℚ) - 1)) :
    resolveGridTracks autoSizeOf tracks availableSpace gap
      = tracks.map (fun t => some
          ((availableSpace - gap * ((tracks.length : ℚ) - 1)) / (tracks.map frWeight).sum
            * frWeight t))
    ∧ (tracks.map (fun t =>
          (availableSpace - gap * ((tracks.length : ℚ) - 1)) / (tracks.map frWeight).sum
            * frWeight t)).sum
        + gap * ((tracks.length : ℚ) - 1) = availableSpace := by
  have hsum : (tracks.map (fun t =>
      (availableSpace - gap * ((tracks.length : ℚ) - 1)) / (tracks.map frWeight).sum
        * frWeight t)).sum
      = availableSpace - gap * ((tracks.length : ℚ) - 1) := by
    rw [List.sum_map_mul_left]
    field_simp
  constructor
  · unfold resolveGridTracks
    rw [gridPass1_all_fr autoSizeOf availableSpace tracks 0 hfr]
    simp only
    rw [grid_total_fr tracks hp 0 0]
    have hrem2 : jnSub (jnSub (some availableSpace) (some 0))
        (some (gap * ((tracks.length : ℚ) - 1)))
        = some (availableSpace - gap * ((tracks.length : ℚ) - 1)) := by
      simp [jnSub]
    rw [hrem2]
    have hg1 : jnGt (some (0 + (tracks.map frWeight).sum)) (some 0) = true := by
      simpa [jnGt] using hw
    have hg2 : jnGt (some (availableSpace - gap * ((tracks.length : ℚ) - 1))) (some 0)
        = true := by
      simpa [jnGt] using hrem
    rw [hg1, hg2]
    simp only [Bool.and_self, if_true]
    have happ := grid_apply_fr
      (jnDiv (some (availableSpace - gap * ((tracks.length : ℚ) - 1)))
        (some (0 + (tracks.map frWeight).sum))) tracks []
    simp only [List.length_nil, List.nil_append] at happ
    rw [happ]
    apply List.map_congr_left
    intro t htm
    have ht : jsParseFloat t = some (frWeight t) := by
      have := hp t htm
      unfold frWeight
      cases hv : jsParseFloat t with
      | none => rw [hv] at this; simp at this
      | some v => simp [hv]
    rw [ht]
    have hwne : (tracks.map frWeight).sum ≠ 0 := ne_of_gt hw
    simp [jnDiv, jnMul, hwne]
  · rw [hsum]
    ring

/-- Witness for C6 amended: tracks 1fr and 2fr in 110 units with gap 10
resolve to 100 over 3 and 200 over 3, summing with the gap to 110. -/
theorem c6_fr_track_distribution_witness :
    resolveGridTracks (fun _ => 50) ["1fr", "2fr"] 110 10
      = [some (100 / 3), some (200 / 3)]
    ∧ (100 / 3 : ℚ) + 200 / 3 + 10 = 110 := by
  have h := c6_fr_track_distribution (fun _ => 50) ["1fr", "2fr"] 110 10
    (by decide) (by decide)
    (by with_unfolding_all decide)
    (by norm_num)
  constructor
  · rw [h.1]
    with_unfolding_all decide
  · norm_num

/-! ## Greedy word wrap (GeometrySnapshot.wrapText, WebEngine.jsx lines
934-956; the same function appears verbatim in TextNode.wrapText, line
2444)

The measurement context is abstracted as a width function on strings. -/

/-- JS text.split with a single space separator: split at every space,
keeping empty chunks. -/
def chSplitSpace : List Char → List Char → List String
  | [], acc => [String.mk acc.reverse]
  | c :: cs, acc =>
    if c = ' ' then String.mk acc.reverse :: chSplitSpace cs []
    else chSplitSpace cs (c :: acc)

/-- Model of JS String.prototype.split with separator a single space. -/
def splitSpace (s : String) : List String := chSplitSpace s.toList []

/-- The word loop of wrapText: extend the current line unless the
extended line overflows and the current line is nonempty, in which case
the current line is committed and the word starts a new line; the final
nonempty line is committed at the end. -/
def wrapWords (measure : String → ℚ) (maxWidth : ℚ) : List String → String → List String
  | [], cur => if cur = "" then [] else [cur]
  | w :: ws, cur =>
    let testLine := if cur = "" then w else cur ++ " " ++ w
    if maxWidth < measure testLine ∧ cur ≠ "" then
      cur :: wrapWords measure maxWidth ws w
    else wrapWords measure maxWidth ws testLine

/-- WebEngine.jsx wrapText: split on spaces and run the greedy loop with
an empty current line. -/
def wrapText (measure : String → ℚ) (text : String) (maxWidth : ℚ) : List String :=
  wrapWords measure maxWidth (splitSpace text) ""

/-- Space-joined rendering of a group of words (the shape of every line
the loop builds). -/
def joinSpace : List String → String
  | [] => ""
  | [w] => w
  | w :: w2 :: ws => w ++ " " ++ joinSpace (w2 :: ws)

/-- A nonempty group of nonempty words joins to a nonempty line. -/
theorem joinSpace_ne_empty : ∀ g : List String, g ≠ [] → (∀ w ∈ g, w ≠ "") →
    joinSpace g ≠ "" := by
  intro g hg hw
  cases g with
  | nil => exact absurd rfl hg
  | cons w rest =>
    cases rest with
    | nil => exact hw w (by simp)
    | cons w2 rest2 =>
      show w ++ " " ++ joinSpace (w2 :: rest2) ≠ ""
      intro h
      have hlen := congrArg String.length h
      rw [String.length_append, String.length_append] at hlen
      have e1 : (" " : String).length = 1 := rfl
      have e2 : ("" : String).length = 0 := rfl
      omega

/-- Appending one word to a nonempty group joins with a space. -/
theorem joinSpace_append_singleton : ∀ (g : List String) (w : String), g ≠ [] →
    joinSpace (g ++ [w]) = joinSpace g ++ " " ++ w := by
  intro g
  induction g with
  | nil => intro w h; exact absurd rfl h
  | cons a rest ih =>
    intro w _
    cases rest with
    | nil => rfl
    | cons b rest2 =>
      show joinSpace (a :: ((b :: rest2) ++ [w])) = _
      have h1 : (b :: rest2) ++ [w] = b :: (rest2 ++ [w]) := rfl
      rw [h1]
      show a ++ " " ++ joinSpace (b :: (rest2 ++ [w])) = _
      have h2 : joinSpace (b :: (rest2 ++ [w])) = joinSpace ((b :: rest2) ++ [w]) := rfl
      rw [h2, ih w (by simp)]
      show a ++ " " ++ (joinSpace (b :: rest2) ++ " " ++ w)
          = a ++ " " ++ joinSpace (b :: rest2) ++ " " ++ w
      simp [String.append_assoc]

/-- Inductive invariant of the greedy loop: starting from a nonempty
current group whose line fits or is a single word, the loop emits groups
that partition the pending words after the current group, every emitted
line fits or is a single word, and lines are exactly space-joins of the
groups. -/
theorem wrapWords_spec (measure : String → ℚ) (maxWidth : ℚ) :
    ∀ (ws : List String) (g : List String), g ≠ [] →
      (∀ w ∈ ws, w ≠ "") → (∀ w ∈ g, w ≠ "") →
      (measure (joinSpace g) ≤ maxWidth ∨ g.length = 1) →
      ∃ gs : List (List String),
        wrapWords measure maxWidth ws (joinSpace g) = gs.map joinSpace
        ∧ gs.flatten = g ++ ws
        ∧ (∀ g2 ∈ gs, g2 ≠ [])
        ∧ (∀ g2 ∈ gs, measure (joinSpace g2) ≤ maxWidth ∨ g2.length = 1) := by
  intro ws
  induction ws with
  | nil =>
    intro g hg hws hgw hfit
    refine ⟨[g], ?_, by simp, by simp [hg], by simp [hfit]⟩
    show (if joinSpace g = "" then [] else [joinSpace g]) = [joinSpace g]
    rw [if_neg (joinSpace_ne_empty g hg hgw)]
  | cons w ws ih =>
    intro g hg hws hgw hfit
    have hcur : joinSpace g ≠ "" := joinSpace_ne_empty g hg hgw
    have hwne : w ≠ "" := hws w (by simp)
    have hwsne : ∀ u ∈ ws, u ≠ "" := fun u hu => hws u (by simp [hu])
    have htest : (if joinSpace g = "" then w else joinSpace g ++ " " ++ w)
        = joinSpace (g ++ [w]) := by
      rw [if_neg hcur, joinSpace_append_singleton g w hg]
    simp only [wrapWords]
    rw [htest]
    by_cases hover : maxWidth < measure (joinSpace (g ++ [w]))
    · rw [if_pos ⟨hover, hcur⟩]
      have hjw : joinSpace [w] = w := rfl
      obtain ⟨gs, h1, h2, h3, h4⟩ := ih [w] (by simp) hwsne
        (by intro u hu; simp at hu; rwa [hu]) (Or.inr rfl)
      rw [hjw] at h1
      refine ⟨g :: gs, ?_, ?_, ?_, ?_⟩
      · rw [h1]; rfl
      · simp [h2]
      · intro g2 hg2
        rcases List.mem_cons.mp hg2 with he | hm
        · rw [he]; exact hg
        · exact h3 g2 hm
      · intro g2 hg2
        rcases List.mem_cons.mp hg2 with he | hm
        · rw [he]; exact hfit
        · exact h4 g2 hm
    · rw [if_neg (fun hc => hover hc.1)]
      have hfit2 : measure (joinSpace (g ++ [w])) ≤ maxWidth ∨ (g ++ [w]).length = 1 :=
        Or.inl (not_lt.mp hover)
      have hgw2 : ∀ u ∈ g ++ [w], u ≠ "" := by
        intro u hu
        rcases List.mem_append.mp hu with hu | hu
        · exact hgw u hu
        · simp at hu; rwa [hu]
      obtain ⟨gs, h1, h2, h3, h4⟩ := ih (g ++ [w]) (by simp) hwsne hgw2 hfit2
      exact ⟨gs, h1, by simp [h2], h3, h4⟩

/-! ## Claim C10: greedy word wrap preserves words and respects maxWidth -/

/-- C10: for any measurement function, any maxWidth and any text whose
space-split words are all nonempty, the wrapped lines are space-joins of
a partition of the words (so the words across all lines, in order, are
exactly the words of the text, none dropped, duplicated or reordered),
and every line either fits within maxWidth under the measurement or
consists of a single word. -/
theorem c10_wrap_text_partition (measure : String → ℚ) (maxWidth : ℚ) (text : String)
    (hw : ∀ w ∈ splitSpace text, w ≠ "") :
    ∃ gs : List (List String),
      wrapText measure text maxWidth = gs.map joinSpace
      ∧ gs.flatten = splitSpace text
      ∧ (∀ g ∈ gs, g ≠ [])
      ∧ (∀ g ∈ gs, measure (joinSpace g) ≤ maxWidth ∨ g.length = 1) := by
  unfold wrapText
  cases hsplit : splitSpace text with
  | nil => exact ⟨[], rfl, by simp, by simp, by simp⟩
  | cons w ws =>
    rw [hsplit] at hw
    have hwne : w ≠ "" := hw w (by simp)
    have hwsne : ∀ u ∈ ws, u ≠ "" := fun u hu => hw u (by simp [hu])
    simp only [wrapWords]
    rw [if_pos (trivial : True)]
    rw [if_neg (fun hc : _ ∧ ("" : String) ≠ "" => hc.2 rfl)]
    have hjw : joinSpace [w] = w := rfl
    obtain ⟨gs, h1, h2, h3, h4⟩ := wrapWords_spec measure maxWidth ws [w] (by simp)
      hwsne (by intro u hu; simp at hu; rwa [hu]) (Or.inr rfl)
    rw [hjw] at h1
    exact ⟨gs, h1, by simpa using h2, h3, h4⟩

/-- Witness for C10: with width measured as character count and maxWidth
8, the text aa bb cc dd wraps to the lines aa bb cc and dd, a partition
of its words. -/
theorem c10_wrap_text_partition_witness :
    wrapText (fun s => (s.length : ℚ)) "aa bb cc dd" 8 = ["aa bb cc", "dd"]
    ∧ ∃ gs : List (List String),
      wrapText (fun s => (s.length : ℚ)) "aa bb cc dd" 8 = gs.map joinSpace
      ∧ gs.flatten = splitSpace "aa bb cc dd"
      ∧ (∀ g ∈ gs, g ≠ [])
      ∧ (∀ g ∈ gs, (fun s => ((s.length : ℚ))) (joinSpace g) ≤ 8 ∨ g.length = 1) := by
  constructor
  · decide
  · exact c10_wrap_text_partition (fun s => (s.length : ℚ)) 8 "aa bb cc dd" (by decide)

/-! ## DOM model and geometry capture (WebEngine.jsx GeometrySnapshot,
lines 54-274)

Elements carry their computed-style strings and viewport rectangle; a DOM
node is an element with children or a text node.  The capture embedding
models the worker-free configuration (useWorkers false), in which
extractStyles takes the direct path; batching only changes how styles are
resolved, not the captured geometry or clips.  The processedNodes set only
guards against revisiting elements, which cannot happen on a tree, and the
transform neutralization is a reverted DOM mutation outside the functional
model. -/

/-- Viewport rectangle of getBoundingClientRect. -/
structure RectQ where
  left : ℚ
  top : ℚ
  width : ℚ
  height : ℚ
deriving DecidableEq, Repr

/-- Computed style and element attributes read by captureNode,
getNodeType, extractRawStyles and extractStyles. -/
structure ElementData where
  rect : RectQ
  tagName : String
  href : Option String
  src : String
  display : String
  opacity : String
  overflow : String
  borderRadius : String
  zIndex : String
  backgroundColor : String
  backgroundImage : String
  borderTopWidth : String
  borderTopColor : String
  borderTopStyle : String
  borderRightWidth : String
  borderRightColor : String
  borderBottomWidth : String
  borderBottomColor : String
  borderLeftWidth : String
  borderLeftColor : String
  borderColor : String
  borderStyle : String
  color : String
  fontSize : String
  fontFamily : String
  fontWeight : String
  fontStyle : String
  textAlign : String
  justifyContent : String
  alignItems : String
  lineHeight : String
  letterSpacing : String
  paddingTop : String
  paddingRight : String
  paddingBottom : String
  paddingLeft : String
  boxShadow : String
  transform : String
  whiteSpace : String
  wordBreak : String
  backgroundClip : String
  webkitBackgroundClip : String
  webkitTextFillColor : String
  listStyleType : String
  visibility : String
deriving DecidableEq, Repr

/-- A DOM node: an element with an ordered child list, or a text node. -/
inductive DomNode where
  | elem (data : ElementData) (kids : List DomNode)
  | textNode (s : String)

mutual
/-- textContent of a node: concatenation of all descendant text. -/
def textContentRaw : DomNode → String
  | .textNode s => s
  | .elem _ kids => textContentList kids

/-- textContent of a child list. -/
def textContentList : List DomNode → String
  | [] => ""
  | k :: ks => textContentRaw k ++ textContentList ks
end

/-- Tag names matched by the querySelector call in getNodeType (selectors
are written lowercase in the source and match tag names
case-insensitively; DOM tag names are uppercase). -/
def blockTags : List String :=
  ["DIV", "SECTION", "ARTICLE", "MAIN", "ASIDE", "HEADER", "FOOTER", "NAV"]

mutual
/-- Whether a node is a block-tag element or contains one. -/
def hasBlockElem : DomNode → Bool
  | .textNode _ => false
  | .elem d kids => blockTags.contains d.tagName || hasBlockList kids

/-- Whether any node of the list is or contains a block-tag element
(the querySelector search over an element's descendants). -/
def hasBlockList : List DomNode → Bool
  | [] => false
  | k :: ks => hasBlockElem k || hasBlockList ks
end

/-- Whether every element child is a BR or WBR (text nodes are not in
element.children). -/
def allKidsLineBreak (kids : List DomNode) : Bool :=
  kids.all fun k =>
    match k with
    | .elem d _ => d.tagName = "BR" || d.tagName = "WBR"
    | .textNode _ => true

/-- Whether some direct child text node has nonempty trimmed content. -/
def hasDirectText (kids : List DomNode) : Bool :=
  kids.any fun k =>
    match k with
    | .textNode s => decide (0 < (strTrim s).length)
    | .elem _ _ => false

/-- Raw contents of the direct child text nodes with nonempty trimmed
content. -/
def directTexts (kids : List DomNode) : List String :=
  kids.filterMap fun k =>
    match k with
    | .textNode s => if strTrim s ≠ "" then some s else none
    | .elem _ _ => none

/-- Tag names treated as text elements by getNodeType. -/
def textTags : List String :=
  ["SPAN", "P", "H1", "H2", "H3", "H4", "H5", "H6", "STRONG", "EM", "B", "I",
   "LABEL", "A", "LI"]

/-- WebEngine.jsx getNodeType (lines 367-401): image for IMG, box for a
visible background, border or shadow, text for a leaf-ish text element or
an element with direct text and no block descendants, box otherwise. -/
def getNodeType (d : ElementData) (kids : List DomNode) : String :=
  if d.tagName = "IMG" then "image"
  else
    let hasVisibleBoxStyle :=
      (d.backgroundColor ≠ "rgba(0, 0, 0, 0)" ∧ d.backgroundColor ≠ "transparent")
      ∨ (truthyStr d.backgroundImage ∧ d.backgroundImage ≠ "none")
      ∨ (jnGt (jsParseFloat d.borderTopWidth) (some 0) ∧ d.borderTopStyle ≠ "none")
      ∨ (truthyStr d.boxShadow ∧ d.boxShadow ≠ "none")
    if hasVisibleBoxStyle then "box"
    else
      let textContent := strTrim (textContentList kids)
      let isTextElement := textTags.contains d.tagName
      if isTextElement ∧ 0 < textContent.length ∧ allKidsLineBreak kids then "text"
      else if hasDirectText kids ∧ ¬ hasBlockList kids then "text"
      else "box"

/-- The styles record produced by the direct (worker-free) path of
extractStyles (WebEngine.jsx lines 490-585); the padding object is
flattened into four fields. -/
structure DirectStyles where
  opacity : ℚ
  zIndex : Option ℤ
  display : String
  gradient : Option EngineGradient
  backgroundColor : String
  backgroundImage : String
  borderWidth : ℚ
  borderRightWidth : ℚ
  borderBottomWidth : ℚ
  borderLeftWidth : ℚ
  borderColor : String
  borderRightColor : String
  borderBottomColor : String
  borderLeftColor : String
  borderStyle : String
  borderRadius : String
  color : String
  justifyContent : String
  alignItems : String
  fontSize : ℚ
  fontFamily : String
  fontWeight : String
  fontStyle : String
  textAlign : String
  lineHeight : JNum
  paddingTop : ℚ
  paddingRight : ℚ
  paddingBottom : ℚ
  paddingLeft : ℚ
  boxShadow : Option String
  transform : Option String
  letterSpacing : ℚ
  whiteSpace : String
  wordBreak : String
  backgroundClip : String
  webkitTextFillColor : String
  listStyleType : String
deriving DecidableEq, Repr

/-- WebEngine.jsx extractStyles in the worker-free configuration: the
cheap fields (opacity, zIndex, display), the locally parsed gradient, and
the direct style assignment block. -/
def extractStylesDirect (c : ElementData) : DirectStyles :=
  { opacity := jsOrQ (jsParseFloat c.opacity) 1
    zIndex := if c.zIndex ≠ "auto" then jsParseInt c.zIndex else some 0
    display := c.display
    gradient :=
      if truthyStr c.backgroundImage ∧ c.backgroundImage ≠ "none" then
        webParseGradient c.backgroundImage
      else none
    backgroundColor := c.backgroundColor
    backgroundImage := c.backgroundImage
    borderWidth := jsOrQ (jsParseFloat c.borderTopWidth) 0
    borderRightWidth := jsOrQ (jsParseFloat c.borderRightWidth) 0
    borderBottomWidth := jsOrQ (jsParseFloat c.borderBottomWidth) 0
    borderLeftWidth := jsOrQ (jsParseFloat c.borderLeftWidth) 0
    borderColor := jsOrStr c.borderTopColor c.borderColor
    borderRightColor := c.borderRightColor
    borderBottomColor := c.borderBottomColor
    borderLeftColor := c.borderLeftColor
    borderStyle := jsOrStr c.borderTopStyle c.borderStyle
    borderRadius := c.borderRadius
    color := c.color
    justifyContent := c.justifyContent
    alignItems := c.alignItems
    fontSize := jsOrQ (jsParseFloat c.fontSize) 12
    fontFamily := c.fontFamily
    fontWeight := c.fontWeight
    fontStyle := c.fontStyle
    textAlign := c.textAlign
    lineHeight := jsOrJ (jsParseFloat c.lineHeight) (jnMul (jsParseFloat c.fontSize) (some (6 / 5)))
    paddingTop := jsOrQ (jsParseFloat c.paddingTop) 0
    paddingRight := jsOrQ (jsParseFloat c.paddingRight) 0
    paddingBottom := jsOrQ (jsParseFloat c.paddingBottom) 0
    paddingLeft := jsOrQ (jsParseFloat c.paddingLeft) 0
    boxShadow := if c.boxShadow ≠ "none" then some c.boxShadow else none
    transform := if c.transform ≠ "none" then some c.transform else none
    letterSpacing := jsOrQ (jsParseFloat c.letterSpacing) 0
    whiteSpace := c.whiteSpace
    wordBreak := c.wordBreak
    backgroundClip := jsOrStr c.backgroundClip c.webkitBackgroundClip
    webkitTextFillColor := c.webkitTextFillColor
    listStyleType := c.listStyleType }

/-- A captured geometry node. -/
structure GeoNode where
  type : String
  x : ℚ
  y : ℚ
  width : ℚ
  height : ℚ
  styles : DirectStyles
  zIndex : ℤ
  href : Option String
  tagName : String
  clip : Option ClipRegion
  text : Option String
  src : Option String
deriving DecidableEq, Repr

/-- Clip to pass to the children (WebEngine.jsx lines 170-197): when the
node hides or auto-clips overflow, its own possibly-rounded region is
intersected with the inherited clip; otherwise the inherited clip flows
through unchanged. -/
def captureChildClip (d : ElementData) (x y w h : ℚ)
    (parentClip : Option ClipRegion) : Option ClipRegion :=
  if d.overflow = "hidden" ∨ d.overflow = "auto" then
    let br := jsOrStr d.borderRadius "0px"
    let radius : JNum :=
      if strContains br "%" then (jsParseFloat br).map (fun v => min w h * v / 100)
      else some (jsOrQ (jsParseFloat br) 0)
    let myClip : ClipRegion := ⟨x, y, w, h, radius⟩
    match parentClip with
    | some pc => some (clipIntersect pc myClip)
    | none => some myClip
  else parentClip

mutual
/-- WebEngine.jsx captureNode for one node: skip text nodes and hidden or
transparent elements, record the node with the clip inherited from the
parent, then recurse into children with the child clip (text nodes
terminate the recursion). -/
def captureElemGo (rootRect : RectQ) : Option ClipRegion → DomNode → List GeoNode
  | _, .textNode _ => []
  | parentClip, .elem d kids =>
    let x := ((jsRound (d.rect.left - rootRect.left) : ℤ) : ℚ)
    let y := ((jsRound (d.rect.top - rootRect.top) : ℤ) : ℚ)
    let w := ((jsRound d.rect.width : ℤ) : ℚ)
    let h := ((jsRound d.rect.height : ℤ) : ℚ)
    if d.display = "none" ∨ jsParseFloat d.opacity = some 0 then []
    else
      let ty := getNodeType d kids
      let base : GeoNode :=
        { type := ty, x := x, y := y, width := w, height := h,
          styles := extractStylesDirect d,
          zIndex := jsOrZ (jsParseInt d.zIndex) 0,
          href := if d.tagName = "A" then d.href else none,
          tagName := d.tagName,
          clip := parentClip,
          text := none, src := none }
      if ty = "text" then
        let t := strTrim (textContentList kids)
        if t = "" then [] else [{ base with text := some t }]
      else
        let nd1 := if ty = "image" then { base with src := some d.src } else base
        let nd :=
          if ty = "box" ∧ directTexts kids ≠ [] then
            { nd1 with text := some (strTrim (joinSpace (directTexts kids))) }
          else nd1
        nd :: captureKidsGo rootRect (captureChildClip d x y w h parentClip) kids

/-- Child loop of captureNode over element.children. -/
def captureKidsGo (rootRect : RectQ) (clip : Option ClipRegion) : List DomNode → List GeoNode
  | [] => []
  | k :: ks => captureElemGo rootRect clip k ++ captureKidsGo rootRect clip ks
end

/-- Capture options; mode selects capture fidelity heuristics and does not
change the output schema (the embedded geometry path reads none of
them). -/
structure CaptureOptions where
  mode : String := "performance"
deriving DecidableEq, Repr

/-- A capture result: nodes, root dimensions, stats. -/
structure Snapshot where
  nodes : List GeoNode
  width : ℤ
  height : ℤ
  statsNodeCount : ℕ
deriving DecidableEq, Repr

/-- WebEngine.jsx GeometrySnapshot.capture (lines 79-149): null for an
absent root; otherwise capture from the root rectangle with no inherited
clip and return the snapshot with ceiled root dimensions. -/
def capture (element : Option (ElementData × List DomNode)) (_options : CaptureOptions) :
    Option Snapshot :=
  match element with
  | none => none
  | some (d, kids) =>
    let rootRect := d.rect
    let nodes := captureElemGo rootRect none (.elem d kids)
    some ⟨nodes, ⌈rootRect.width⌉, ⌈rootRect.height⌉, nodes.length⟩

/-! ## Claim C1: self-clip invariant -/

/-- C1: every node recorded by captureNode stores exactly the clip
inherited from its parent: whatever the node's own overflow is, the first
node of its capture output (the node recorded for the element itself)
carries parentClip, and the node's own overflow region enters only
captureChildClip, the clip passed to the children's traversal. -/
theorem c1_self_clip_invariant (rootRect : RectQ) (parentClip : Option ClipRegion)
    (d : ElementData) (kids : List DomNode) :
    (∀ n : GeoNode,
      (captureElemGo rootRect parentClip (.elem d kids)).head? = some n → n.clip = parentClip)
    ∧ (¬ (d.display = "none" ∨ jsParseFloat d.opacity = some 0) →
      getNodeType d kids ≠ "text" →
      ∃ nd : GeoNode, nd.clip = parentClip ∧
        captureElemGo rootRect parentClip (.elem d kids)
          = nd :: captureKidsGo rootRect
              (captureChildClip d
                ((jsRound (d.rect.left - rootRect.left) : ℤ) : ℚ)
                ((jsRound (d.rect.top - rootRect.top) : ℤ) : ℚ)
                ((jsRound d.rect.width : ℤ) : ℚ)
                ((jsRound d.rect.height : ℤ) : ℚ) parentClip) kids) := by
  constructor
  · intro n h
    simp only [captureElemGo] at h
    split_ifs at h <;> simp_all <;> subst h <;> rfl
  · intro h1 h2
    simp only [captureElemGo]
    rw [if_neg h1, if_neg h2]
    refine ⟨_, ?_, rfl⟩
    split_ifs <;> rfl

/-- A neutral element used by the witnesses. -/
def blankElement : ElementData :=
  { rect := ⟨0, 0, 200, 100⟩
    tagName := "DIV", href := none, src := ""
    display := "block", opacity := "1", overflow := "visible"
    borderRadius := "0px", zIndex := "auto"
    backgroundColor := "rgba(0, 0, 0, 0)", backgroundImage := "none"
    borderTopWidth := "0px", borderTopColor := "rgb(0, 0, 0)", borderTopStyle := "none"
    borderRightWidth := "0px", borderRightColor := "rgb(0, 0, 0)"
    borderBottomWidth := "0px", borderBottomColor := "rgb(0, 0, 0)"
    borderLeftWidth := "0px", borderLeftColor := "rgb(0, 0, 0)"
    borderColor := "rgb(0, 0, 0)", borderStyle := "none"
    color := "rgb(0, 0, 0)", fontSize := "16px", fontFamily := "Arial"
    fontWeight := "400", fontStyle := "normal", textAlign := "left"
    justifyContent := "normal", alignItems := "normal"
    lineHeight := "normal", letterSpacing := "normal"
    paddingTop := "0px", paddingRight := "0px", paddingBottom := "0px", paddingLeft := "0px"
    boxShadow := "none", transform := "none"
    whiteSpace := "normal", wordBreak := "normal"
    backgroundClip := "border-box", webkitBackgroundClip := "border-box"
    webkitTextFillColor := "rgb(0, 0, 0)", listStyleType := "disc"
    visibility := "visible" }

/-- Clipping parent of the C1 witness: overflow hidden and a visible
background. -/
def c1DemoParent : ElementData :=
  { blankElement with overflow := "hidden", backgroundColor := "rgb(255, 0, 0)" }

/-- Child element of the C1 witness. -/
def c1DemoKid : DomNode := .elem { blankElement with rect := ⟨10, 10, 50, 50⟩ } []

/-- Witness for C1: the clipping parent's own recorded node carries the
inherited clip none even though it clips overflow, and the clip passed to
its children is its own full region. -/
theorem c1_self_clip_invariant_witness :
    (∃ nd : GeoNode, nd.clip = none ∧
      captureElemGo blankElement.rect none (.elem c1DemoParent [c1DemoKid])
        = nd :: captureKidsGo blankElement.rect
            (captureChildClip c1DemoParent
              ((jsRound (c1DemoParent.rect.left - blankElement.rect.left) : ℤ) : ℚ)
              ((jsRound (c1DemoParent.rect.top - blankElement.rect.top) : ℤ) : ℚ)
              ((jsRound c1DemoParent.rect.width : ℤ) : ℚ)
              ((jsRound c1DemoParent.rect.height : ℤ) : ℚ) none) [c1DemoKid])
    ∧ captureChildClip c1DemoParent 0 0 200 100 none = some ⟨0, 0, 200, 100, some 0⟩ := by
  constructor
  · exact (c1_self_clip_invariant blankElement.rect none c1DemoParent [c1DemoKid]).2
      (by with_unfolding_all decide) (by with_unfolding_all decide)
  · with_unfolding_all decide

/-! ## Claim C7: capture contract and default substitution -/

/-- C7: capture returns null exactly when the root element is absent; for
a present root it always returns a snapshot (the embedding is a total
function, so no exception path exists), and unparsable numeric style
strings resolve to the documented defaults: fontSize 12, border width 0,
opacity 1, padding 0, letter-spacing 0. -/
theorem c7_capture_contract (element : Option (ElementData × List DomNode))
    (options : CaptureOptions) :
    (capture element options = none ↔ element = none)
    ∧ (∀ c : ElementData,
        (jsParseFloat c.fontSize = none → (extractStylesDirect c).fontSize = 12)
        ∧ (jsParseFloat c.borderTopWidth = none → (extractStylesDirect c).borderWidth = 0)
        ∧ (jsParseFloat c.opacity = none → (extractStylesDirect c).opacity = 1)
        ∧ (jsParseFloat c.paddingTop = none → (extractStylesDirect c).paddingTop = 0)
        ∧ (jsParseFloat c.letterSpacing = none → (extractStylesDirect c).letterSpacing = 0)) := by
  constructor
  · cases element with
    | none => simp [capture]
    | some p => simp [capture]
  · intro c
    refine ⟨?_, ?_, ?_, ?_, ?_⟩ <;> intro h <;> simp [extractStylesDirect, jsOrQ, h]

/-- Witness for C7: a present root yields a snapshot, and an unparsable
fontSize resolves to the default 12. -/
theorem c7_capture_contract_witness :
    capture (some (blankElement, [])) ⟨"performance"⟩ ≠ none
    ∧ (extractStylesDirect { blankElement with fontSize := "garbage" }).fontSize = 12 := by
  constructor
  · intro h
    have := (c7_capture_contract (some (blankElement, [])) ⟨"performance"⟩).1.mp h
    simp at this
  · exact ((c7_capture_contract none ⟨"performance"⟩).2
      { blankElement with fontSize := "garbage" }).1 (by decide)

/-! ## Claim C8: batch style resolution, local path vs worker path

The raw style snapshot is the record built by extractRawStyles
(WebEngine.jsx lines 403-440); the local path is processBatchLocally
(lines 442-488) and the worker path the PARSE_STYLES handler of
styleWorker.js (lines 138-197).  Both produce one fragment per raw entry
(both are maps over the batch, so the batches have equal length by
construction); the fragments are compared in a common record whose fields
are wrapped in Option for presence, with a second Option where the JS
value itself can be null or undefined. -/

/-- The raw style snapshot record of extractRawStyles. -/
structure RawStyles where
  backgroundColor : String
  backgroundImage : String
  borderTopWidth : String
  borderTopColor : String
  borderTopStyle : String
  borderRightWidth : String
  borderRightColor : String
  borderBottomWidth : String
  borderBottomColor : String
  borderLeftWidth : String
  borderLeftColor : String
  borderRadius : String
  color : String
  fontSize : String
  fontFamily : String
  fontWeight : String
  fontStyle : String
  textAlign : String
  justifyContent : String
  alignItems : String
  lineHeight : String
  letterSpacing : String
  paddingTop : String
  paddingRight : String
  paddingBottom : String
  paddingLeft : String
  opacity : String
  boxShadow : String
  transform : String
  zIndex : String
  overflow : String
  visibility : String
  whiteSpace : String
  wordBreak : String
deriving DecidableEq, Repr

/-- A gradient value as stored on a fragment: the local path stores the
engine representation (css color strings with positions), the worker path
the worker representation (hex color numbers with alpha and offset). -/
inductive GradVal where
  | engine (g : EngineGradient)
  | worker (g : WorkerGradient)
deriving DecidableEq, Repr

/-- Common fragment record: the outer Option is property presence, an
inner Option a JS null or undefined value. -/
structure ResolvedFragment where
  backgroundColor : Option String
  backgroundImage : Option String
  borderWidth : Option ℚ
  borderRightWidth : Option ℚ
  borderBottomWidth : Option ℚ
  borderLeftWidth : Option ℚ
  borderColor : Option (Option String)
  borderRightColor : Option String
  borderBottomColor : Option String
  borderLeftColor : Option String
  borderStyle : Option (Option String)
  borderRadius : Option String
  color : Option String
  display : Option (Option String)
  justifyContent : Option String
  alignItems : Option String
  fontSize : Option ℚ
  fontFamily : Option String
  fontWeight : Option String
  fontStyle : Option String
  textAlign : Option String
  lineHeight : Option JNum
  paddingTop : Option ℚ
  paddingRight : Option ℚ
  paddingBottom : Option ℚ
  paddingLeft : Option ℚ
  boxShadow : Option (Option String)
  transform : Option (Option String)
  letterSpacing : Option ℚ
  whiteSpace : Option String
  wordBreak : Option String
  opacity : Option ℚ
  zIndex : Option (Option ℤ)
  overflow : Option String
  visibility : Option String
  gradient : Option (Option GradVal)
deriving DecidableEq, Repr

/-- One fragment of GeometrySnapshot.processBatchLocally: the fields the
Object.assign writes (display reads the nonexistent raw.display, giving a
present-but-undefined property), plus the locally parsed gradient which is
assigned only when parsing succeeds. -/
def localFragment (raw : RawStyles) : ResolvedFragment :=
  { backgroundColor := some raw.backgroundColor
    backgroundImage := some raw.backgroundImage
    borderWidth := some (jsOrQ (jsParseFloat raw.borderTopWidth) 0)
    borderRightWidth := some (jsOrQ (jsParseFloat raw.borderRightWidth) 0)
    borderBottomWidth := some (jsOrQ (jsParseFloat raw.borderBottomWidth) 0)
    borderLeftWidth := some (jsOrQ (jsParseFloat raw.borderLeftWidth) 0)
    borderColor := some (some raw.borderTopColor)
    borderRightColor := some raw.borderRightColor
    borderBottomColor := some raw.borderBottomColor
    borderLeftColor := some raw.borderLeftColor
    borderStyle := some (some raw.borderTopStyle)
    borderRadius := some raw.borderRadius
    color := some raw.color
    display := some none
    justifyContent := some raw.justifyContent
    alignItems := some raw.alignItems
    fontSize := some (jsOrQ (jsParseFloat raw.fontSize) 12)
    fontFamily := some raw.fontFamily
    fontWeight := some raw.fontWeight
    fontStyle := some raw.fontStyle
    textAlign := some raw.textAlign
    lineHeight := some (jsOrJ (jsParseFloat raw.lineHeight)
      (jnMul (jsParseFloat raw.fontSize) (some (6 / 5))))
    paddingTop := some (jsOrQ (jsParseFloat raw.paddingTop) 0)
    paddingRight := some (jsOrQ (jsParseFloat raw.paddingRight) 0)
    paddingBottom := some (jsOrQ (jsParseFloat raw.paddingBottom) 0)
    paddingLeft := some (jsOrQ (jsParseFloat raw.paddingLeft) 0)
    boxShadow := some (if raw.boxShadow ≠ "none" then some raw.boxShadow else none)
    transform := some (if raw.transform ≠ "none" then some raw.transform else none)
    letterSpacing := some (jsOrQ (jsParseFloat raw.letterSpacing) 0)
    whiteSpace := some raw.whiteSpace
    wordBreak := some raw.wordBreak
    opacity := none
    zIndex := none
    overflow := none
    visibility := none
    gradient :=
      if truthyStr raw.backgroundImage ∧ raw.backgroundImage ≠ "none" then
        match webParseGradient raw.backgroundImage with
        | some g => some (some (.engine g))
        | none => none
      else none }

/-- One fragment of the styleWorker.js PARSE_STYLES map: the same scalar
fields, the or-fallbacks on borderColor and borderStyle (whose fallback
raw.borderColor and raw.borderStyle properties do not exist on the raw
record), the extra opacity, zIndex, overflow and visibility fields, and a
gradient field that is always present, null when there is no background
image. -/
def workerFragment (raw : RawStyles) : ResolvedFragment :=
  { backgroundColor := some raw.backgroundColor
    backgroundImage := some raw.backgroundImage
    borderWidth := some (jsOrQ (jsParseFloat raw.borderTopWidth) 0)
    borderRightWidth := some (jsOrQ (jsParseFloat raw.borderRightWidth) 0)
    borderBottomWidth := some (jsOrQ (jsParseFloat raw.borderBottomWidth) 0)
    borderLeftWidth := some (jsOrQ (jsParseFloat raw.borderLeftWidth) 0)
    borderColor := some (if raw.borderTopColor = "" then none else some raw.borderTopColor)
    borderRightColor := some raw.borderRightColor
    borderBottomColor := some raw.borderBottomColor
    borderLeftColor := some raw.borderLeftColor
    borderStyle := some (if raw.borderTopStyle = "" then none else some raw.borderTopStyle)
    borderRadius := some raw.borderRadius
    color := some raw.color
    display := none
    justifyContent := some raw.justifyContent
    alignItems := some raw.alignItems
    fontSize := some (jsOrQ (jsParseFloat raw.fontSize) 12)
    fontFamily := some raw.fontFamily
    fontWeight := some raw.fontWeight
    fontStyle := some raw.fontStyle
    textAlign := some raw.textAlign
    lineHeight := some (jsOrJ (jsParseFloat raw.lineHeight)
      (jnMul (jsParseFloat raw.fontSize) (some (6 / 5))))
    paddingTop := some (jsOrQ (jsParseFloat raw.paddingTop) 0)
    paddingRight := some (jsOrQ (jsParseFloat raw.paddingRight) 0)
    paddingBottom := some (jsOrQ (jsParseFloat raw.paddingBottom) 0)
    paddingLeft := some (jsOrQ (jsParseFloat raw.paddingLeft) 0)
    boxShadow := some (if raw.boxShadow ≠ "none" then some raw.boxShadow else none)
    transform := some (if raw.transform ≠ "none" then some raw.transform else none)
    letterSpacing := some (jsOrQ (jsParseFloat raw.letterSpacing) 0)
    whiteSpace := some raw.whiteSpace
    wordBreak := some raw.wordBreak
    opacity := some (jsOrQ (jsParseFloat raw.opacity) 1)
    zIndex := some (if raw.zIndex ≠ "auto" then jsParseInt raw.zIndex else some 0)
    overflow := some raw.overflow
    visibility := some raw.visibility
    gradient := some
      (if truthyStr raw.backgroundImage ∧ raw.backgroundImage ≠ "none" then
        (workerParseGradient raw.backgroundImage).map GradVal.worker
      else none) }

/-- The scalar fields both paths assign from the raw record with the same
expression. -/
structure SharedScalars where
  backgroundColor : Option String
  backgroundImage : Option String
  borderWidth : Option ℚ
  borderRightWidth : Option ℚ
  borderBottomWidth : Option ℚ
  borderLeftWidth : Option ℚ
  borderRightColor : Option String
  borderBottomColor : Option String
  borderLeftColor : Option String
  borderRadius : Option String
  color : Option String
  justifyContent : Option String
  alignItems : Option String
  fontSize : Option ℚ
  fontFamily : Option String
  fontWeight : Option String
  fontStyle : Option String
  textAlign : Option String
  lineHeight : Option JNum
  paddingTop : Option ℚ
  paddingRight : Option ℚ
  paddingBottom : Option ℚ
  paddingLeft : Option ℚ
  boxShadow : Option (Option String)
  transform : Option (Option String)
  letterSpacing : Option ℚ
  whiteSpace : Option String
  wordBreak : Option String
deriving DecidableEq, Repr

/-- Projection of a fragment onto the shared scalar fields. -/
def sharedScalars (f : ResolvedFragment) : SharedScalars :=
  { backgroundColor := f.backgroundColor, backgroundImage := f.backgroundImage
    borderWidth := f.borderWidth, borderRightWidth := f.borderRightWidth
    borderBottomWidth := f.borderBottomWidth, borderLeftWidth := f.borderLeftWidth
    borderRightColor := f.borderRightColor, borderBottomColor := f.borderBottomColor
    borderLeftColor := f.borderLeftColor, borderRadius := f.borderRadius
    color := f.color, justifyContent := f.justifyContent, alignItems := f.alignItems
    fontSize := f.fontSize, fontFamily := f.fontFamily, fontWeight := f.fontWeight
    fontStyle := f.fontStyle, textAlign := f.textAlign, lineHeight := f.lineHeight
    paddingTop := f.paddingTop, paddingRight := f.paddingRight
    paddingBottom := f.paddingBottom, paddingLeft := f.paddingLeft
    boxShadow := f.boxShadow, transform := f.transform
    letterSpacing := f.letterSpacing
    whiteSpace := f.whiteSpace, wordBreak := f.wordBreak }

/-- Raw record with every string empty and an auto zIndex. -/
def c8RawBlank : RawStyles :=
  { backgroundColor := "", backgroundImage := "", borderTopWidth := ""
    borderTopColor := "", borderTopStyle := "", borderRightWidth := ""
    borderRightColor := "", borderBottomWidth := "", borderBottomColor := ""
    borderLeftWidth := "", borderLeftColor := "", borderRadius := ""
    color := "", fontSize := "", fontFamily := "", fontWeight := ""
    fontStyle := "", textAlign := "", justifyContent := "", alignItems := ""
    lineHeight := "", letterSpacing := "", paddingTop := "", paddingRight := ""
    paddingBottom := "", paddingLeft := "", opacity := "", boxShadow := ""
    transform := "", zIndex := "auto", overflow := "", visibility := ""
    whiteSpace := "", wordBreak := "" }

/-- C8 counterexample: on the same raw record the two resolution paths
produce fragments that are not field-for-field equal: the worker fragment
carries an opacity property (value 1) that the local fragment does not
have at all, and similarly for zIndex, overflow, visibility, the
local-only display property, and the gradient property inventory. -/
theorem c8_counterexample :
    (localFragment c8RawBlank).opacity = none
    ∧ (workerFragment c8RawBlank).opacity = some 1
    ∧ (localFragment c8RawBlank).zIndex = none
    ∧ (workerFragment c8RawBlank).zIndex = some (some 0)
    ∧ (localFragment c8RawBlank).display = some none
    ∧ (workerFragment c8RawBlank).display = none
    ∧ localFragment c8RawBlank ≠ workerFragment c8RawBlank := by
  refine ⟨rfl, rfl, rfl, rfl, rfl, rfl, ?_⟩
  intro h
  have := congrArg ResolvedFragment.opacity h
  exact absurd this (by decide)

/-- C8 amended: the two resolution paths agree on every scalar field both
of them produce; borderColor and borderStyle also agree whenever the raw
top border color and style are nonempty (the worker applies an
or-fallback to a nonexistent property, yielding undefined on empty
strings where the local path keeps the empty string); they differ in the
bookkeeping fields, which only the worker outputs (opacity, zIndex,
overflow, visibility) or only the local path outputs (display,
present but undefined), and in the gradient field: when a background
image parses on both paths the local fragment stores the engine
representation and the worker fragment the worker representation with
numeric colors and offsets, which are never equal. -/
theorem c8_fragment_parity (raw : RawStyles) :
    sharedScalars (localFragment raw) = sharedScalars (workerFragment raw)
    ∧ (raw.borderTopColor ≠ "" →
        (localFragment raw).borderColor = (workerFragment raw).borderColor)
    ∧ (raw.borderTopStyle ≠ "" →
        (localFragment raw).borderStyle = (workerFragment raw).borderStyle)
    ∧ (localFragment raw).opacity = none
    ∧ (workerFragment raw).opacity = some (jsOrQ (jsParseFloat raw.opacity) 1)
    ∧ (localFragment raw).zIndex = none
    ∧ (workerFragment raw).zIndex
        = some (if raw.zIndex ≠ "auto" then jsParseInt raw.zIndex else some 0)
    ∧ (localFragment raw).overflow = none
    ∧ (workerFragment raw).overflow = some raw.overflow
    ∧ (localFragment raw).visibility = none
    ∧ (workerFragment raw).visibility = some raw.visibility
    ∧ (localFragment raw).display = some none
    ∧ (workerFragment raw).display = none
    ∧ (truthyStr raw.backgroundImage ∧ raw.backgroundImage ≠ "none" →
        ∀ (g : EngineGradient) (wg : WorkerGradient),
          webParseGradient raw.backgroundImage = some g →
          workerParseGradient raw.backgroundImage = some wg →
          (localFragment raw).gradient ≠ (workerFragment raw).gradient) := by
  refine ⟨rfl, ?_, ?_, rfl, rfl, rfl, rfl, rfl, rfl, rfl, rfl, rfl, rfl, ?_⟩
  · intro h
    simp only [localFragment, workerFragment]
    rw [if_neg h]
  · intro h
    simp only [localFragment, workerFragment]
    rw [if_neg h]
  · intro hc g wg hg hwg
    simp only [localFragment, workerFragment, if_pos hc, hg, hwg]
    intro h
    simp at h

/-- Raw record of the C8 witness: nonempty top border color and style
and a two-stop gradient background. -/
def c8RawDemo : RawStyles :=
  { c8RawBlank with
    borderTopColor := "black"
    borderTopStyle := "solid"
    backgroundImage := "linear-gradient(a,b)" }

/-- Witness for C8 amended: on the demo raw record the conditional parity
parts hold and the gradient representation mismatch is realized. -/
theorem c8_fragment_parity_witness :
    (localFragment c8RawDemo).borderColor = (workerFragment c8RawDemo).borderColor
    ∧ (localFragment c8RawDemo).borderStyle = (workerFragment c8RawDemo).borderStyle
    ∧ (localFragment c8RawDemo).gradient ≠ (workerFragment c8RawDemo).gradient := by
  have h := c8_fragment_parity c8RawDemo
  refine ⟨h.2.1 (by decide), h.2.2.1 (by decide), ?_⟩
  cases hcase : webParseGradient c8RawDemo.backgroundImage with
  | none => exact absurd hcase (by decide)
  | some g =>
    cases hwcase : workerParseGradient c8RawDemo.backgroundImage with
    | none => exact absurd hwcase (by decide)
    | some wg =>
      exact h.2.2.2.2.2.2.2.2.2.2.2.2.2 (by decide) g wg hcase hwcase

/-! ## Claim C9: z-index render order

Both backends sort a copy of the snapshot's nodes with
Array.prototype.sort and the numeric comparator difference of (zIndex
or-0): renderToCanvas (WebEngine.jsx lines 744-745) keys on node.zIndex,
PixiRendererEngine.render (lines 1062-1066) on node.styles.zIndex.
ECMAScript sort is stable, so it is modelled by the reference stable
insertion sort below: each element is inserted after all already-placed
elements whose key is less than or equal, which is the unique
stable ascending order. -/

/-- Insert an element after every element of the (sorted) list whose key
does not exceed its own. -/
def sortInsert {α : Type} (key : α → ℤ) (x : α) : List α → List α
  | [] => [x]
  | y :: ys => if key y ≤ key x then y :: sortInsert key x ys else x :: y :: ys

/-- Reference model of the stable ascending Array.prototype.sort with a
numeric key comparator. -/
def jsStableSort {α : Type} (key : α → ℤ) (l : List α) : List α :=
  l.foldl (fun acc x => sortInsert key x acc) []

/-- Render order of the raster backend: ascending node.zIndex or-0. -/
def renderOrderCanvas (nodes : List GeoNode) : List GeoNode :=
  jsStableSort (fun n => jsOrInt n.zIndex 0) nodes

/-- Render order of the GPU backend: ascending node.styles.zIndex or-0. -/
def renderOrderPixi (nodes : List GeoNode) : List GeoNode :=
  jsStableSort (fun n => jsOrZ n.styles.zIndex 0) nodes

/-- Inserting keeps the list a permutation of the element consed on. -/
theorem sortInsert_perm {α : Type} (key : α → ℤ) (x : α) :
    ∀ l : List α, List.Perm (sortInsert key x l) (x :: l) := by
  intro l
  induction l with
  | nil => rfl
  | cons y ys ih =>
    show List.Perm (if key y ≤ key x then y :: sortInsert key x ys else x :: y :: ys) _
    split_ifs with h
    · exact ((ih.cons y).trans (List.Perm.swap x y ys))
    · rfl

/-- Inserting preserves sortedness by the key. -/
theorem sortInsert_sorted {α : Type} (key : α → ℤ) (x : α) :
    ∀ l : List α, l.Pairwise (fun a b => key a ≤ key b) →
      (sortInsert key x l).Pairwise (fun a b => key a ≤ key b) := by
  intro l
  induction l with
  | nil => intro _; simp [sortInsert]
  | cons y ys ih =>
    intro hs
    show List.Pairwise _ (if key y ≤ key x then y :: sortInsert key x ys else x :: y :: ys)
    rcases List.pairwise_cons.mp hs with ⟨hy, hys⟩
    split_ifs with h
    · refine List.pairwise_cons.mpr ⟨?_, ih hys⟩
      intro b hb
      have := (sortInsert_perm key x ys).mem_iff.mp hb
      rcases List.mem_cons.mp this with hbx | hby
      · rw [hbx]; exact h
      · exact hy b hby
    · refine List.pairwise_cons.mpr ⟨?_, hs⟩
      intro b hb
      rcases List.mem_cons.mp hb with hby | hbys
      · rw [hby]; exact le_of_not_le h
      · exact (le_of_not_le h).trans (hy b hbys)

/-- Inserting into a sorted list places the element exactly after the
existing elements of its key class. -/
theorem sortInsert_filter {α : Type} (key : α → ℤ) (x : α) (k : ℤ) :
    ∀ l : List α, l.Pairwise (fun a b => key a ≤ key b) →
      (sortInsert key x l).filter (fun a => key a == k)
        = if key x = k then l.filter (fun a => key a == k) ++ [x]
          else l.filter (fun a => key a == k) := by
  intro l
  induction l with
  | nil =>
    intro _
    show [x].filter (fun a => key a == k) = _
    by_cases hx : key x = k
    · rw [if_pos hx]; simp [List.filter_cons, beq_iff_eq, hx]
    · rw [if_neg hx]; simp [List.filter_cons, beq_iff_eq, hx]
  | cons y ys ih =>
    intro hs
    rcases List.pairwise_cons.mp hs with ⟨hy, hys⟩
    show (if key y ≤ key x then y :: sortInsert key x ys else x :: y :: ys).filter _ = _
    by_cases h : key y ≤ key x
    · rw [if_pos h, List.filter_cons, ih hys]
      by_cases hx : key x = k
      · rw [if_pos hx, if_pos hx, List.filter_cons]
        by_cases hyk : (key y == k) = true
        · rw [if_pos hyk, if_pos hyk]; rfl
        · rw [if_neg hyk, if_neg hyk]
      · rw [if_neg hx, if_neg hx, List.filter_cons]
    · rw [if_neg h]
      by_cases hx : key x = k
      · rw [if_pos hx]
        have hempty : (y :: ys).filter (fun a => key a == k) = [] := by
          rw [List.filter_eq_nil_iff]
          intro b hb hbk
          have hkb : key b = k := by simpa using hbk
          have hge : key y ≤ key b := by
            rcases List.mem_cons.mp hb with rfl | hmem
            · exact le_refl _
            · exact hy b hmem
          exact h (hge.trans (le_of_eq (hkb.trans hx.symm)))
        rw [hempty, List.filter_cons]
        have hxk : (key x == k) = true := by simpa using hx
        simp [hxk, hempty]
      · rw [if_neg hx, List.filter_cons]
        have hxk : (key x == k) = false := by simpa using hx
        simp [hxk]

/-- The stable sort is sorted ascending by the key. -/
theorem jsStableSort_go_sorted {α : Type} (key : α → ℤ) :
    ∀ (l acc : List α), acc.Pairwise (fun a b => key a ≤ key b) →
      (l.foldl (fun acc x => sortInsert key x acc) acc).Pairwise
        (fun a b => key a ≤ key b) := by
  intro l
  induction l with
  | nil => intro acc h; exact h
  | cons x xs ih =>
    intro acc h
    exact ih (sortInsert key x acc) (sortInsert_sorted key x acc h)

/-- The stable sort permutes its input. -/
theorem jsStableSort_go_perm {α : Type} (key : α → ℤ) :
    ∀ (l acc : List α),
      List.Perm (l.foldl (fun acc x => sortInsert key x acc) acc) (acc ++ l) := by
  intro l
  induction l with
  | nil => intro acc; simp
  | cons x xs ih =>
    intro acc
    refine (ih (sortInsert key x acc)).trans ?_
    have h1 : List.Perm (sortInsert key x acc ++ xs) ((x :: acc) ++ xs) :=
      (sortInsert_perm key x acc).append_right xs
    refine h1.trans ?_
    show List.Perm (x :: (acc ++ xs)) (acc ++ x :: xs)
    exact (List.perm_middle).symm

/-- The stable sort preserves the relative order of equal keys: filtering
any key class gives the same list as filtering the input. -/
theorem jsStableSort_go_filter {α : Type} (key : α → ℤ) (k : ℤ) :
    ∀ (l acc : List α), acc.Pairwise (fun a b => key a ≤ key b) →
      (l.foldl (fun acc x => sortInsert key x acc) acc).filter (fun a => key a == k)
        = acc.filter (fun a => key a == k) ++ l.filter (fun a => key a == k) := by
  intro l
  induction l with
  | nil => intro acc _; simp
  | cons x xs ih =>
    intro acc h
    show (xs.foldl (fun acc x => sortInsert key x acc) (sortInsert key x acc)).filter _ = _
    rw [ih (sortInsert key x acc) (sortInsert_sorted key x acc h)]
    rw [sortInsert_filter key x k acc h, List.filter_cons]
    by_cases hx : key x = k
    · have hb : (key x == k) = true := by simpa using hx
      rw [if_pos hx, if_pos hb]
      simp
    · have hb : (key x == k) = false := by simpa using hx
      rw [if_neg hx, if_neg (by simp [hb] : ¬ ((key x == k) = true))]

/-- C9: both renderer backends draw the snapshot nodes in ascending
zIndex order (raster keyed on node.zIndex or-0, GPU keyed on
node.styles.zIndex or-0), each order is a permutation of the captured
nodes, and the sort is stable: within every zIndex class the capture
order is preserved exactly. -/
theorem c9_render_order_stable_sort (nodes : List GeoNode) :
    ((renderOrderCanvas nodes).Pairwise
      (fun a b => jsOrInt a.zIndex 0 ≤ jsOrInt b.zIndex 0)
    ∧ List.Perm (renderOrderCanvas nodes) nodes
    ∧ ∀ k : ℤ, (renderOrderCanvas nodes).filter (fun n => jsOrInt n.zIndex 0 == k)
        = nodes.filter (fun n => jsOrInt n.zIndex 0 == k))
    ∧ ((renderOrderPixi nodes).Pairwise
      (fun a b => jsOrZ a.styles.zIndex 0 ≤ jsOrZ b.styles.zIndex 0)
    ∧ List.Perm (renderOrderPixi nodes) nodes
    ∧ ∀ k : ℤ, (renderOrderPixi nodes).filter (fun n => jsOrZ n.styles.zIndex 0 == k)
        = nodes.filter (fun n => jsOrZ n.styles.zIndex 0 == k)) := by
  refine ⟨⟨?_, ?_, ?_⟩, ?_, ?_, ?_⟩
  · exact jsStableSort_go_sorted _ nodes [] (by simp)
  · simpa using jsStableSort_go_perm (fun n => jsOrInt n.zIndex 0) nodes []
  · intro k
    simpa using jsStableSort_go_filter (fun n => jsOrInt n.zIndex 0) k nodes [] (by simp)
  · exact jsStableSort_go_sorted _ nodes [] (by simp)
  · simpa using jsStableSort_go_perm (fun n => jsOrZ n.styles.zIndex 0) nodes []
  · intro k
    simpa using jsStableSort_go_filter (fun n => jsOrZ n.styles.zIndex 0) k nodes [] (by simp)

end WebglSpec
